import Mathlib

/-!
DCTZ decompression (`dctz_decompress`, dctz-decomp-lib.c)

A shallow embedding of the decoder's block-reconstruction loop and of the final
magnitude rescaling, together with the properties established about them.

Modelling conventions.

* C arrays (`bin_index`, `DC`, `AC_exact`, `qtable`, `bin_center`, `a_xr`, `a_r`) are total
  maps from an index to the content of that cell.  The C code performs no bounds check at
  any subscript; which cells are touched is recorded in an access trace.
* `double` values are elements of an arbitrary type `α`; the only arithmetic the decoder
  performs on them (`*`, `-`, `pow`, `!=`) is supplied by the caller of the model.  With
  `USE_TRUNCATE` the `DC` and `AC_exact` cells are `float`, converted to `double` on load,
  which preserves the value.  Concrete evaluations use `ℤ`, whose small values and products
  are exactly representable as doubles.
* `BLK_SZ` is a macro of `dctz.h`; it is a parameter here.  It is an integer constant in C
  (it is used inside array subscripts).
* `USE_QTABLE` is a compile-time switch; it is a Boolean parameter here.
* `num_elements` is a C `int`.  The model covers `N ≥ 0`, so `N` is a natural number, and on
  non-negative operands C division is the natural-number division.
* `pos` and `c` are `unsigned int` cursors.  They only ever increase by one per AC slot, so
  they stay below `2 * N < 2 ^ 32` (see `cursors_bounded`); they are natural numbers here.
* `ifft_idct` (dct.c) and `gen_bins` are external to the file and are parameters.  The call
  `ifft_idct (BLK_SZ, a_xr+i*BLK_SZ, a_r+i*BLK_SZ)` is taken to read the `BLK_SZ` cells of
  its input block and to store the `BLK_SZ` cells of its output block, as a function of the
  input block alone.
* `dctz_decompress` is modelled from line 247 on, over the buffers as they stand once the
  header is read and the streams are copied and inflated.
* `dctz_decompress_container` puts the front half (lines 45-203) before it.  The container
  is read through the header it starts with and through the `float`/`double` element held
  at a byte offset; zlib's `inflate` and `compressBound` are parameters; a buffer cell that
  no copy and no inflation has written keeps the content `malloc` gave it, and a cell
  written only in part holds the splice of the two.  It is the run in which every `malloc`
  succeeds.
* `dctz_decompress_call` is the call as a whole: `exit (1)` on the first `malloc` that
  fails, the run above otherwise.  Which allocations succeed is a parameter.  Other ways
  for the process to end (a fault on an access outside a buffer) are not modelled.
-/

namespace DCTZ

/-- The in-place array store `a[k] = v`. -/
def upd {α : Type} (a : Nat → α) (k : Nat) (v : α) : Nat → α :=
  fun x => if x = k then v else a x

/-- One array access performed by the block loop, tagged by the code site it comes from. -/
inductive Access where
  /-- Load of `DC[i]`, line 252. -/
  | DC_read (i : Nat)
  /-- Load of `bin_index[i*BLK_SZ+j]`, lines 260 and 277. -/
  | primary_read (k : Nat)
  /-- Load of `bin_index[c++]`, line 262. -/
  | secondary_read (k : Nat)
  /-- Load of `AC_exact[pos]`, lines 264 and 272. -/
  | AC_exact_read (k : Nat)
  /-- Load of `bin_center[...]`, lines 268 and 277. -/
  | bin_center_read (b : Nat)
  /-- Load of `qtable[j]`, line 270. -/
  | qtable_read (j : Nat)
  /-- Load from `a_xr`: line 270, and the input block of `ifft_idct`, line 284. -/
  | a_xr_read (k : Nat)
  /-- Store to `a_xr`: lines 252, 264, 268, 270, 272, 277. -/
  | a_xr_write (k : Nat)
  /-- Store to `a_r` by `ifft_idct`, line 284. -/
  | a_r_write (k : Nat)
  deriving DecidableEq, Repr

/-- Everything the block loop reads but never modifies. -/
structure Env (α : Type) where
  /-- Transform block size (macro `BLK_SZ`). -/
  BLK_SZ : Nat
  /-- Whether the build defines `USE_QTABLE`. -/
  USE_QTABLE : Bool
  /-- Multiplication of doubles. -/
  mul : α → α → α
  /-- The inverse transform: `ifft_idct n inp` is the output block, by in-block position. -/
  ifft_idct : Nat → List α → Nat → α
  /-- Header field `num_elements`. -/
  N : Nat
  /-- The inflated bin-index stream (`unsigned char` cells). -/
  bin_index : Nat → Fin 256
  /-- The inflated DC stream. -/
  DC : Nat → α
  /-- The AC-exact stream. -/
  AC_exact : Nat → α
  /-- The quantizer table. -/
  qtable : Nat → α
  /-- The bin centers produced by `gen_bins`. -/
  bin_center : Nat → α

/-- The mutable state of the block loop, with two ghost fields (`calls`, `trace`). -/
structure State (α : Type) where
  /-- Frequency-domain work buffer. -/
  a_xr : Nat → α
  /-- Caller-owned output buffer. -/
  a_r : Nat → α
  /-- Cursor into `AC_exact`. -/
  pos : Nat
  /-- Cursor into the secondary segment of `bin_index`. -/
  c : Nat
  /-- Ghost: the input blocks passed to `ifft_idct`, in call order. -/
  calls : List (List α)
  /-- Ghost: the array accesses performed so far, in program order. -/
  trace : List Access

/-- The block count of line 50 and line 219: `nblk = ceil(N/BLK_SZ)`.  Both operands of `/`
are `int`, so the quotient is already truncated when `ceil` receives it, and `ceil` of an
integral double is that same value. -/
def nblk (N BLK_SZ : Nat) : Nat := N / BLK_SZ

/-- The body of the inner loop (lines 257-278) for block `i` and in-block position `j`. -/
def ac_slot {α : Type} (E : Env α) (i j : Nat) (s : State α) : State α :=
  let k := i * E.BLK_SZ + j
  if (E.bin_index k).val = 255 then
    if E.USE_QTABLE then
      let sbin_id := E.bin_index s.c
      let s1 : State α :=
        { s with
          c := s.c + 1
          trace := s.trace ++ [Access.primary_read k, Access.secondary_read s.c] }
      let s2 : State α :=
        if sbin_id.val = 255 then
          { s1 with
            a_xr := upd s1.a_xr k (E.AC_exact s1.pos)
            pos := s1.pos + 1
            trace := s1.trace ++ [Access.AC_exact_read s1.pos, Access.a_xr_write k] }
        else
          { s1 with
            a_xr := upd s1.a_xr k (E.bin_center sbin_id.val)
            trace := s1.trace ++ [Access.bin_center_read sbin_id.val, Access.a_xr_write k] }
      { s2 with
        a_xr := upd s2.a_xr k (E.mul (s2.a_xr k) (E.qtable j))
        trace := s2.trace ++
          [Access.a_xr_read k, Access.qtable_read j, Access.a_xr_write k] }
    else
      { s with
        a_xr := upd s.a_xr k (E.AC_exact s.pos)
        pos := s.pos + 1
        trace := s.trace ++
          [Access.primary_read k, Access.AC_exact_read s.pos, Access.a_xr_write k] }
  else
    { s with
      a_xr := upd s.a_xr k (E.bin_center (E.bin_index k).val)
      trace := s.trace ++
        [Access.primary_read k, Access.primary_read k,
         Access.bin_center_read (E.bin_index k).val, Access.a_xr_write k] }

/-- The inner loop `for (j=1; j<BLK_SZ; j++)` of block `i`, run for its first `m` rounds. -/
def ac_loop {α : Type} (E : Env α) (i m : Nat) (s : State α) : State α :=
  (List.range' 1 m).foldl (fun st j => ac_slot E i j st) s

/-- The input block `a_xr+i*BLK_SZ` as `ifft_idct` sees it. -/
def block_of {α : Type} (E : Env α) (i : Nat) (a_xr : Nat → α) : List α :=
  (List.range E.BLK_SZ).map (fun j => a_xr (i * E.BLK_SZ + j))

/-- Line 252, the first statement of the outer loop body: `a_xr[i*BLK_SZ] = DC[i]`. -/
def block_begin {α : Type} (E : Env α) (s : State α) (i : Nat) : State α :=
  { s with
    a_xr := upd s.a_xr (i * E.BLK_SZ) (E.DC i)
    trace := s.trace ++ [Access.DC_read i, Access.a_xr_write (i * E.BLK_SZ)] }

/-- The body of the outer loop (lines 252-284) for block `i`: the DC store, the inner loop,
and the call `ifft_idct (BLK_SZ, a_xr+i*BLK_SZ, a_r+i*BLK_SZ)`. -/
def block_step {α : Type} (E : Env α) (s : State α) (i : Nat) : State α :=
  let s1 := ac_loop E i (E.BLK_SZ - 1) (block_begin E s i)
  let vec := block_of E i s1.a_xr
  { s1 with
    a_r := fun k =>
      if i * E.BLK_SZ ≤ k ∧ k < i * E.BLK_SZ + E.BLK_SZ then
        E.ifft_idct E.BLK_SZ vec (k - i * E.BLK_SZ)
      else s1.a_r k
    calls := s1.calls ++ [vec]
    trace := s1.trace
      ++ (List.range E.BLK_SZ).map (fun j => Access.a_xr_read (i * E.BLK_SZ + j))
      ++ (List.range E.BLK_SZ).map (fun j => Access.a_r_write (i * E.BLK_SZ + j)) }

/-- The state at line 247-248, before the block loop: `pos = 0`, `c = N`. -/
def init_state {α : Type} (E : Env α) (a_xr0 a_r0 : Nat → α) : State α :=
  { a_xr := a_xr0, a_r := a_r0, pos := 0, c := E.N, calls := [], trace := [] }

/-- The outer loop `for (i=0; i<nblk; i++)`, run for its first `n` rounds. -/
def blocks {α : Type} (E : Env α) (n : Nat) (s : State α) : State α :=
  (List.range n).foldl (block_step E) s

/-- The whole block loop (lines 247-292), from the uninitialised work buffer `a_xr0` and
the caller's output buffer `a_r0`. -/
def block_loop {α : Type} (E : Env α) (a_xr0 a_r0 : Nat → α) : State α :=
  blocks E (nblk E.N E.BLK_SZ) (init_state E a_xr0 a_r0)

/-- The state in which the inner loop of block `i` reaches position `j` (`j ≥ 1`): blocks
`0 .. i-1` are done, `DC[i]` is stored, positions `1 .. j-1` of block `i` are done. -/
def slot_state {α : Type} (E : Env α) (a_xr0 a_r0 : Nat → α) (i j : Nat) : State α :=
  ac_loop E i (j - 1) (block_begin E (blocks E i (init_state E a_xr0 a_r0)) i)

/-- Position `j` of the block that the `i`-th call of `ifft_idct` received, if there was
such a call and the block is that long. -/
def handed {α : Type} (s : State α) (i j : Nat) : Option α :=
  (s.calls[i]?).bind (fun vec => vec[j]?)

/-- The arithmetic on doubles used outside the block loop (lines 303-307). -/
structure DoubleOps (α : Type) where
  /-- Multiplication `x * y`. -/
  mul : α → α → α
  /-- Subtraction `x - y`. -/
  sub : α → α → α
  /-- The library call `pow(x, y)`. -/
  pow : α → α → α
  /-- The comparison `x != y`. -/
  ne : α → α → Bool
  /-- The constant `1.0`. -/
  one : α
  /-- The constant `10`, converted to double. -/
  ten : α

/-- The fields of `struct header` (dctz.h) that the decoder reads. -/
structure Header (α : Type) where
  /-- Total sample count. -/
  num_elements : Nat
  /-- Error bound handed to `gen_bins`. -/
  error_bound : α
  /-- Declared number of AC-exact values. -/
  tot_AC_exact_count : Nat
  /-- Decimal scaling factor. -/
  scaling_factor : α
  /-- Byte length of the compressed bin-index stream. -/
  bindex_sz_compressed : Nat
  /-- Byte length of the compressed DC stream. -/
  DC_sz_compressed : Nat
  /-- Byte length of the AC-exact stream. -/
  AC_exact_sz_compressed : Nat
  /-- Length of the bin-index stream under `USE_QTABLE`. -/
  bindex_count : Nat

/-- The build-time configuration and the external routines. -/
structure Build (α : Type) where
  /-- Macro `BLK_SZ`. -/
  BLK_SZ : Nat
  /-- Macro `NBINS`. -/
  NBINS : Nat
  /-- Whether `USE_QTABLE` is defined. -/
  USE_QTABLE : Bool
  /-- Arithmetic on doubles. -/
  ops : DoubleOps α
  /-- The inverse transform of dct.c. -/
  ifft_idct : Nat → List α → Nat → α
  /-- The table `bin_center` that `gen_bins` fills for `NBINS` bins and an error bound. -/
  gen_bins : Nat → α → Nat → α

/-- The buffers as they stand at line 246, after the copies and the two inflations. -/
structure Buffers (α : Type) where
  /-- The inflated bin-index stream. -/
  bin_index : Nat → Fin 256
  /-- The inflated DC stream. -/
  DC : Nat → α
  /-- The AC-exact stream. -/
  AC_exact : Nat → α
  /-- The quantizer table. -/
  qtable : Nat → α

/-- The environment of the block loop for a given build, header and buffers. -/
def env_of {α : Type} (B : Build α) (h : Header α) (buf : Buffers α) : Env α :=
  { BLK_SZ := B.BLK_SZ
    USE_QTABLE := B.USE_QTABLE
    mul := B.ops.mul
    ifft_idct := B.ifft_idct
    N := h.num_elements
    bin_index := buf.bin_index
    DC := buf.DC
    AC_exact := buf.AC_exact
    qtable := buf.qtable
    bin_center := B.gen_bins B.NBINS h.error_bound }

/-- The loop of lines 306-307, `for (i=0; i<N; i++) a_r[i] *= xscale;`. -/
def rescale_loop {α : Type} (mul : α → α → α) (xscale : α) (N : Nat) (a_r : Nat → α) :
    Nat → α :=
  (List.range N).foldl (fun a i => upd a i (mul (a i) xscale)) a_r

/-- Lines 303-307: `xscale = pow(10, SF-1)`, applied only when `SF != 1.0`. -/
def rescale {α : Type} (ops : DoubleOps α) (SF : α) (N : Nat) (a_r : Nat → α) : Nat → α :=
  let xscale := ops.pow ops.ten (ops.sub SF ops.one)
  if ops.ne SF ops.one then rescale_loop ops.mul xscale N a_r else a_r

/-- What a call of `dctz_decompress` leaves behind. -/
structure Result (α : Type) where
  /-- The returned `int`. -/
  ret : Int
  /-- The output buffer `a_r` on return. -/
  a_r : Nat → α
  /-- Ghost: the state at the end of the block loop, line 292. -/
  loop_end : State α

/-- The decoder from line 247 on: block loop, rescaling, `return (1)`. -/
def dctz_decompress {α : Type} (B : Build α) (h : Header α) (buf : Buffers α)
    (a_xr0 a_r0 : Nat → α) : Result α :=
  let E := env_of B h buf
  let s := block_loop E a_xr0 a_r0
  { ret := 1
    a_r := rescale B.ops h.scaling_factor h.num_elements s.a_r
    loop_end := s }

/-! The front half of the decoder (lines 45-203): the copies out of the container and the
two inflations.  Byte offsets are relative to `a_z`; they are sums of a few 32-bit header
fields computed in pointer arithmetic, so they are natural numbers here. -/

/-- The value of `sizeof(float)`. -/
def sizeof_float : Nat := 4

/-- The value of `sizeof(double)`. -/
def sizeof_double : Nat := 8

/-- The value of `sizeof(unsigned char)`. -/
def sizeof_uchar : Nat := 1

/-- The buffers that lines 112-121 fill from the container. -/
inductive Dest where
  /-- The compressed bin-index stream, line 112. -/
  | bin_indexz
  /-- The compressed DC stream, line 116. -/
  | DCz
  /-- The AC-exact stream, line 118. -/
  | AC_exact
  /-- The quantizer table, line 121. -/
  | qtable
  deriving DecidableEq, Repr

/-- One call `memcpy (dst, a_z + src, len)`. -/
structure Memcpy where
  /-- The buffer written. -/
  dst : Dest
  /-- The byte offset in the container the copy starts at. -/
  src : Nat
  /-- The number of bytes copied. -/
  len : Nat
  deriving DecidableEq, Repr

/-- What one call of zlib's `inflate` is given. -/
structure InflateRequest where
  /-- The copy that filled the buffer `next_in` points to. -/
  input : Memcpy
  /-- The field `avail_in`. -/
  avail_in : Nat
  /-- The field `avail_out`, the uncompressed size asked for. -/
  avail_out : Nat

/-- What one call of zlib's `inflate` delivers: its return code, the field `total_out`, and
the content of the output, element by element. -/
structure InflateResult (β : Type) where
  /-- The return code (`Z_OK = 0`, `Z_STREAM_END = 1`, errors negative). -/
  ret : Int
  /-- The number of bytes produced. -/
  total_out : Nat
  /-- The output, by element index. -/
  out : Nat → β

/-- The precision switch and what the front half takes from outside the file. -/
structure Setting (α : Type) where
  /-- Whether `USE_TRUNCATE` is defined: `DC` and `AC_exact` hold `float` if so. -/
  USE_TRUNCATE : Bool
  /-- The value of `sizeof(struct header)`. -/
  sizeof_header : Nat
  /-- The zlib routine `compressBound`. -/
  compressBound : Nat → Nat
  /-- The zlib routine `inflate` on the bin-index stream; the output is in bytes. -/
  inflate_bin_index : InflateRequest → InflateResult (Fin 256)
  /-- The zlib routine `inflate` on the DC stream; the output is in DC elements. -/
  inflate_DC : InflateRequest → InflateResult α
  /-- The element `splice n x y` whose first `n` bytes are those of `x` and whose other
  bytes are those of `y`: what a cell holds once a copy or an inflation has overwritten
  only its first `n` bytes. -/
  splice : Nat → α → α → α

/-- The container `a_z` as the decoder reads it. -/
structure Container (α : Type) where
  /-- The header held by the first `sizeof(struct header)` bytes. -/
  h : Header α
  /-- The `float` held by the 4 bytes at a byte offset. -/
  float_at : Nat → α
  /-- The `double` held by the 8 bytes at a byte offset. -/
  double_at : Nat → α

/-- The content of the buffers as `malloc` returns them. -/
structure Heap (α : Type) where
  /-- The fresh `bin_index`. -/
  bin_index : Nat → Fin 256
  /-- The fresh `DC`. -/
  DC : Nat → α
  /-- The fresh `AC_exact`. -/
  AC_exact : Nat → α
  /-- The fresh `qtable`. -/
  qtable : Nat → α
  /-- The fresh `a_xr`. -/
  a_xr : Nat → α

/-- The width of a `DC` or `AC_exact` element: lines 34-38. -/
def elem_size {α : Type} (S : Setting α) : Nat :=
  if S.USE_TRUNCATE then sizeof_float else sizeof_double

/-- The `DC`/`AC_exact` element held by the container at a byte offset. -/
def elem_at {α : Type} (S : Setting α) (C : Container α) (o : Nat) : α :=
  if S.USE_TRUNCATE then C.float_at o else C.double_at o

/-- The cursor `cur_p` after line 47: `a_z + sizeof(struct header)`. -/
def cur_p_bindex {α : Type} (S : Setting α) : Nat := S.sizeof_header

/-- The cursor `cur_p` after line 113. -/
def cur_p_DC {α : Type} (S : Setting α) (h : Header α) : Nat :=
  cur_p_bindex S + h.bindex_sz_compressed

/-- The cursor `cur_p` after line 117. -/
def cur_p_AC_exact {α : Type} (S : Setting α) (h : Header α) : Nat :=
  cur_p_DC S h + h.DC_sz_compressed

/-- The cursor `cur_p` after line 120 (`USE_QTABLE` only). -/
def cur_p_qtable {α : Type} (S : Setting α) (h : Header α) : Nat :=
  cur_p_AC_exact S h + h.AC_exact_sz_compressed

/-- The copies of lines 112-121, in program order. -/
def memcpys {α : Type} (B : Build α) (S : Setting α) (h : Header α) : List Memcpy :=
  [{ dst := Dest.bin_indexz, src := cur_p_bindex S, len := h.bindex_sz_compressed },
   { dst := Dest.DCz, src := cur_p_DC S h, len := h.DC_sz_compressed },
   { dst := Dest.AC_exact, src := cur_p_AC_exact S h, len := h.AC_exact_sz_compressed }]
  ++ (if B.USE_QTABLE then
        [{ dst := Dest.qtable, src := cur_p_qtable S h, len := B.BLK_SZ * sizeof_double }]
      else [])

/-- The copy of lines 112-121 that fills a given buffer; a copy of no byte if the build
has no such copy. -/
def copy_to {α : Type} (B : Build α) (S : Setting α) (h : Header α) (d : Dest) : Memcpy :=
  ((memcpys B S h).find? (fun m => m.dst = d)).getD { dst := d, src := 0, len := 0 }

/-- Lines 139 and 145: `ucompSize_binindex`. -/
def ucompSize_binindex {α : Type} (B : Build α) (h : Header α) : Nat :=
  if B.USE_QTABLE then h.bindex_count * sizeof_uchar else h.num_elements * sizeof_uchar

/-- Line 153: `ucompSize_DC = nblk*sizeof(float)`, in either precision. -/
def ucompSize_DC {α : Type} (B : Build α) (h : Header α) : Nat :=
  nblk h.num_elements B.BLK_SZ * sizeof_float

/-- Lines 167-170: the inflation of the bin-index stream, out of the buffer `bin_indexz`. -/
def bin_index_request {α : Type} (B : Build α) (S : Setting α) (h : Header α) :
    InflateRequest :=
  { input := copy_to B S h Dest.bin_indexz
    avail_in := S.compressBound (ucompSize_binindex B h)
    avail_out := ucompSize_binindex B h }

/-- Lines 197-200: the inflation of the DC stream, out of the buffer `DCz`. -/
def DC_request {α : Type} (B : Build α) (S : Setting α) (h : Header α) : InflateRequest :=
  { input := copy_to B S h Dest.DCz
    avail_in := S.compressBound (ucompSize_DC B h)
    avail_out := ucompSize_DC B h }

/-- The number of bytes an inflation has written: `total_out`, which zlib keeps within
`avail_out`. -/
def written {β : Type} (req : InflateRequest) (res : InflateResult β) : Nat :=
  min res.total_out req.avail_out

/-- Cell `k` of a buffer of `w`-byte elements after `n` bytes were written into it from
its start: the element `x` written there if all its bytes were written, the previous
content `fresh` if none was, and their splice if only the first bytes were. -/
def cell_after {α : Type} (S : Setting α) (n w k : Nat) (x fresh : α) : α :=
  if (k + 1) * w ≤ n then x
  else if k * w < n then S.splice (n - k * w) x fresh
  else fresh

/-- The buffers at line 246.  `bin_index` and `DC` hold what the two inflations wrote,
`AC_exact` and `qtable` what the copies of lines 118 and 121 wrote, over the content
`malloc` gave them.  The return codes of `inflate` (lines 172 and 202) are not stored, and
`total_out` is only printed. -/
def load_buffers {α : Type} (B : Build α) (S : Setting α) (C : Container α) (heap : Heap α) :
    Buffers α :=
  let rb := S.inflate_bin_index (bin_index_request B S C.h)
  let rd := S.inflate_DC (DC_request B S C.h)
  let mA := copy_to B S C.h Dest.AC_exact
  let mQ := copy_to B S C.h Dest.qtable
  { bin_index := fun k =>
      if (k + 1) * sizeof_uchar ≤ written (bin_index_request B S C.h) rb then rb.out k
      else heap.bin_index k
    DC := fun i =>
      cell_after S (written (DC_request B S C.h) rd) (elem_size S) i (rd.out i) (heap.DC i)
    AC_exact := fun k =>
      cell_after S mA.len (elem_size S) k (elem_at S C (mA.src + k * elem_size S))
        (heap.AC_exact k)
    qtable := fun j =>
      cell_after S mQ.len sizeof_double j (C.double_at (mQ.src + j * sizeof_double))
        (heap.qtable j) }

/-- The environment of the block loop that the front half sets up. -/
def container_env {α : Type} (B : Build α) (S : Setting α) (C : Container α)
    (heap : Heap α) : Env α :=
  env_of B C.h (load_buffers B S C heap)

/-- The run of `dctz_decompress (a_z, a_r)` in which every allocation succeeds: front
half, block loop, rescaling, `return (1)`. -/
def dctz_decompress_container {α : Type} (B : Build α) (S : Setting α) (C : Container α)
    (heap : Heap α) (a_r0 : Nat → α) : Result α :=
  dctz_decompress B C.h (load_buffers B S C heap) heap.a_xr a_r0

/-- The sizes of the `malloc` calls, in program order: `bin_indexz` (line 55 or 60), `DCz`
(76 or 81), `AC_exact` (88 or 93), `qtable` (101, `USE_QTABLE` only), `a_xr` (107),
`bin_index` (140 or 146), `DC` (184 or 189), `bin_maxes` (221), `bin_center` (226). -/
def mallocs {α : Type} (B : Build α) (S : Setting α) (h : Header α) : List Nat :=
  [ucompSize_binindex B h,
   nblk h.num_elements B.BLK_SZ * elem_size S,
   h.tot_AC_exact_count * elem_size S]
  ++ (if B.USE_QTABLE then [B.BLK_SZ * sizeof_double] else [])
  ++ [h.num_elements * sizeof_double,
      ucompSize_binindex B h,
      nblk h.num_elements B.BLK_SZ * elem_size S,
      B.NBINS * sizeof_double,
      B.NBINS * sizeof_double]

/-- Whether every allocation of a list succeeds, `A k n` telling whether the `malloc`
number `k` of the call, of `n` bytes, returns a buffer. -/
def all_allocated (A : Nat → Nat → Bool) : Nat → List Nat → Bool
  | _, [] => true
  | k, n :: ns => A k n && all_allocated A (k + 1) ns

/-- How a call of `dctz_decompress` ends. -/
inductive Outcome (α : Type) where
  /-- The process ends in `exit (code)`: every failed `malloc` leads to `exit (1)`. -/
  | exited (code : Int)
  /-- The call returns. -/
  | returned (r : Result α)

/-- The call `dctz_decompress (a_z, a_r)`: it exits the process on the first allocation
that fails, and otherwise runs to `return (1)`. -/
def dctz_decompress_call {α : Type} (A : Nat → Nat → Bool) (B : Build α) (S : Setting α)
    (C : Container α) (heap : Heap α) (a_r0 : Nat → α) : Outcome α :=
  if all_allocated A 0 (mallocs B S C.h) then
    Outcome.returned (dctz_decompress_container B S C heap a_r0)
  else Outcome.exited 1

/-- The value a call returns, if it returns. -/
def Outcome.value {α : Type} : Outcome α → Option Int
  | Outcome.exited _ => none
  | Outcome.returned r => some r.ret

/-- The state at the end of the block loop of a call, if the call returns. -/
def Outcome.loop_end {α : Type} : Outcome α → Option (State α)
  | Outcome.exited _ => none
  | Outcome.returned r => some r.loop_end

/-! The slot order and the counts the statements below refer to. -/

/-- The AC slots `(i, 1), ..., (i, BLK_SZ-1)` of block `i`, in loop order. -/
def block_slots (BLK_SZ i : Nat) : List (Nat × Nat) :=
  (List.range' 1 (BLK_SZ - 1)).map (fun j => (i, j))

/-- The AC slots of blocks `0 .. n-1`, in loop order. -/
def slots_of_blocks (BLK_SZ : Nat) : Nat → List (Nat × Nat)
  | 0 => []
  | n + 1 => slots_of_blocks BLK_SZ n ++ block_slots BLK_SZ n

/-- The AC slots that precede slot `(i, j)` in (block, position) order. -/
def slots_before (BLK_SZ i j : Nat) : List (Nat × Nat) :=
  slots_of_blocks BLK_SZ i ++ (List.range' 1 (j - 1)).map (fun j' => (i, j'))

/-- Whether the primary index of a slot is the escape value 255. -/
def primary_escape {α : Type} (E : Env α) (p : Nat × Nat) : Bool :=
  (E.bin_index (p.1 * E.BLK_SZ + p.2)).val == 255

/-- The number of primary escapes among the slots before `(i, j)`. -/
def escapes_before {α : Type} (E : Env α) (i j : Nat) : Nat :=
  (slots_before E.BLK_SZ i j).countP (primary_escape E)

/-- The cell of `bin_index` that the secondary cursor points at when slot `(i, j)` is
reached: the cursor starts at `N` and has moved once per earlier primary escape. -/
def secondary_index {α : Type} (E : Env α) (i j : Nat) : Fin 256 :=
  E.bin_index (E.N + escapes_before E i j)

/-- The number of secondary-index loads before slot `(i, j)`: one per earlier primary
escape under `USE_QTABLE`, none otherwise. -/
def secondary_reads_before {α : Type} (E : Env α) (i j : Nat) : Nat :=
  if E.USE_QTABLE then escapes_before E i j else 0

/-- Whether a slot is resolved from the AC-exact stream: a primary escape, and under
`USE_QTABLE` also a secondary escape. -/
def exact_slot {α : Type} (E : Env α) (p : Nat × Nat) : Bool :=
  primary_escape E p && (!E.USE_QTABLE || (secondary_index E p.1 p.2).val == 255)

/-- The number of slots before `(i, j)` that are resolved from the AC-exact stream. -/
def exact_before {α : Type} (E : Env α) (i j : Nat) : Nat :=
  (slots_before E.BLK_SZ i j).countP (exact_slot E)

/-- The value the inner loop leaves at position `j ≥ 1` of block `i`. -/
def ac_value {α : Type} (E : Env α) (i j : Nat) : α :=
  let b := E.bin_index (i * E.BLK_SZ + j)
  if b.val = 255 then
    if E.USE_QTABLE then
      let s := secondary_index E i j
      if s.val = 255 then E.mul (E.AC_exact (exact_before E i j)) (E.qtable j)
      else E.mul (E.bin_center s.val) (E.qtable j)
    else E.AC_exact (exact_before E i j)
  else E.bin_center b.val

/-- The value at position `j` of the block handed to `ifft_idct` for block `i`. -/
def freq_value {α : Type} (E : Env α) (i j : Nat) : α :=
  if j = 0 then E.DC i else ac_value E i j

/-- Whether an access touches a sample position: a primary bin-index load, a load or
store on `a_xr`, or a store on `a_r`; the position touched, if so. -/
def Access.sample_index : Access → Option Nat
  | Access.primary_read k => some k
  | Access.a_xr_read k => some k
  | Access.a_xr_write k => some k
  | Access.a_r_write k => some k
  | _ => none

/-- Whether an access is a secondary-index load `bin_index[c++]`. -/
def Access.is_secondary : Access → Bool
  | Access.secondary_read _ => true
  | _ => false

/-- Whether an access is a load from the AC-exact stream. -/
def Access.is_exact : Access → Bool
  | Access.AC_exact_read _ => true
  | _ => false

/-- The block handed to `ifft_idct` for block `i`, in closed form. -/
def freq_block {α : Type} (E : Env α) (i : Nat) : List α :=
  (List.range E.BLK_SZ).map (freq_value E i)

/-- Every sample position touched so far lies below `L`. -/
def trace_below {α : Type} (L : Nat) (s : State α) : Prop :=
  ∀ e ∈ s.trace, ∀ k, e.sample_index = some k → k < L

/-- The cursors agree with the trace: `c` has moved once per secondary-index load and `pos`
once per AC-exact load. -/
def cursors_match {α : Type} (E : Env α) (s : State α) : Prop :=
  s.c = E.N + s.trace.countP Access.is_secondary ∧ s.pos = s.trace.countP Access.is_exact

/-- The cell a secondary-index load reads, if the access is one. -/
def Access.secondary_pos : Access → Option Nat
  | Access.secondary_read k => some k
  | _ => none

/-- The cell an AC-exact load reads, if the access is one. -/
def Access.exact_pos : Access → Option Nat
  | Access.AC_exact_read k => some k
  | _ => none

/-- Every load from the quantizer table so far is at an index `j ≥ 1`. -/
def qtable_reads_positive {α : Type} (s : State α) : Prop :=
  ∀ e ∈ s.trace, ∀ j, e = Access.qtable_read j → 1 ≤ j

/-- The loads through the two cursors are consecutive: the secondary-index loads so far
read the cells `N, N+1, ..., c-1` in that order, and the AC-exact loads the cells
`0, 1, ..., pos-1`. -/
def cursors_in_order {α : Type} (E : Env α) (s : State α) : Prop :=
  E.N ≤ s.c
  ∧ s.trace.filterMap Access.secondary_pos = List.range' E.N (s.c - E.N)
  ∧ s.trace.filterMap Access.exact_pos = List.range' 0 s.pos

/-! Concrete inputs used to evaluate the model. -/

/-- Exact integer arithmetic standing in for the arithmetic on doubles. -/
def int_ops : DoubleOps Int :=
  { mul := fun a b => a * b
    sub := fun a b => a - b
    pow := fun a b => a ^ b.toNat
    ne := fun a b => a != b
    one := 1
    ten := 10 }

/-- A build with `BLK_SZ = 4`, a stand-in transform that adds 1000 to every coefficient,
and bin centers `10 * b`. -/
def sample_build (q : Bool) : Build Int :=
  { BLK_SZ := 4
    NBINS := 255
    USE_QTABLE := q
    ops := int_ops
    ifft_idct := fun _ v j => v.getD j 0 + 1000
    gen_bins := fun _ _ b => 10 * b }

/-- A header with `N = 9` (two whole blocks and one trailing sample), a given scaling
factor and a given declared AC-exact count. -/
def sample_header (SF : Int) (tot : Nat) : Header Int :=
  { num_elements := 9
    error_bound := 1
    tot_AC_exact_count := tot
    scaling_factor := SF
    bindex_sz_compressed := 12
    DC_sz_compressed := 16
    AC_exact_sz_compressed := 8 * tot
    bindex_count := 12 }

/-- Buffers with primary escapes at cells 1, 2 and 6, and with `255, 7, 255` in the
cells 9, 10, 11 that follow the `N` primary cells. -/
def sample_buffers : Buffers Int :=
  { bin_index := fun k =>
      if k = 1 ∨ k = 2 ∨ k = 6 ∨ k = 9 ∨ k = 11 then 255 else if k = 10 then 7 else 3
    DC := fun i => 100 + i
    AC_exact := fun k => 50 + k
    qtable := fun j => 2 + j }

/-- The block-loop environment of the sample container, in either mode. -/
def sample_env (q : Bool) : Env Int :=
  env_of (sample_build q) (sample_header 1 3) sample_buffers

/-- The initial content of the work buffer and of the output buffer in the evaluations. -/
def zeros : Nat → Int := fun _ => 0

/-- Buffers without any primary escape: every primary cell holds bin 3; the cells from
`N = 9` on hold a given byte, and the AC-exact stream and quantizer table are shifted by a
given amount. -/
def hits_buffers (tail : Fin 256) (shift : Int) : Buffers Int :=
  { bin_index := fun k => if k < 9 then 3 else tail
    DC := fun i => 100 + i
    AC_exact := fun k => 50 + k + shift
    qtable := fun j => 2 + j + shift }

/-- Exact rational arithmetic standing in for the arithmetic on doubles; `pow` is only
meant for integral exponents. -/
def rat_ops : DoubleOps ℚ :=
  { mul := fun a b => a * b
    sub := fun a b => a - b
    pow := fun a b => a ^ b.num.toNat
    ne := fun a b => a != b
    one := 1
    ten := 10 }

/-- The build of the end-to-end example: `BLK_SZ = 8`, direct mode, an arbitrary inverse
transform, and a bin table whose center number 3 is `0.004`. -/
def example_build (idct : Nat → List ℚ → Nat → ℚ) : Build ℚ :=
  { BLK_SZ := 8
    NBINS := 255
    USE_QTABLE := false
    ops := rat_ops
    ifft_idct := idct
    gen_bins := fun _ _ b => if b = 3 then 0.004 else 0 }

/-- The header of the end-to-end example: `N = 16`, error bound `0.001`, scaling factor
`1.0`, no AC-exact value. -/
def example_header : Header ℚ :=
  { num_elements := 16
    error_bound := 0.001
    tot_AC_exact_count := 0
    scaling_factor := 1
    bindex_sz_compressed := 16
    DC_sz_compressed := 16
    AC_exact_sz_compressed := 0
    bindex_count := 16 }

/-- The setting of the end-to-end example, in either precision: `inflate` delivers the
16 bin indices and the two DC values of the example, as far as `avail_out` allows, and
returns `Z_STREAM_END` (1) if the stream was delivered whole and `Z_OK` (0) if not. -/
def example_setting (trunc : Bool) : Setting ℚ :=
  { USE_TRUNCATE := trunc
    sizeof_header := 40
    compressBound := fun n => n + 13
    inflate_bin_index := fun q =>
      { ret := if q.avail_out < 16 then 0 else 1
        total_out := min q.avail_out 16
        out := fun _ => 3 }
    inflate_DC := fun q =>
      { ret := if q.avail_out < 2 * (if trunc then 4 else 8) then 0 else 1
        total_out := min q.avail_out (2 * (if trunc then 4 else 8))
        out := fun i => if i = 0 then 1.5 else -2.25 }
    splice := fun _ _ y => y }

/-- The container of the end-to-end example; its AC-exact stream is empty. -/
def example_container : Container ℚ :=
  { h := example_header
    float_at := fun _ => 0
    double_at := fun _ => 0 }

/-- A setting with a 40-byte header and stand-ins for zlib: `inflate` returns a given code
and either fills the whole output it was asked for, with the sample bin indices and the
DC values `100 + i`, or produces nothing. -/
def sample_setting (trunc : Bool) (code : Int) (fill : Bool) : Setting Int :=
  { USE_TRUNCATE := trunc
    sizeof_header := 40
    compressBound := fun n => n + 13
    inflate_bin_index := fun r =>
      { ret := code
        total_out := if fill then r.avail_out else 0
        out := sample_buffers.bin_index }
    inflate_DC := fun r =>
      { ret := code
        total_out := if fill then r.avail_out else 0
        out := fun i => 100 + i }
    splice := fun n x y => 1000000 * n + 1000 * x + y }

/-- A container with the sample header, in which the value stored at a byte offset is
that offset. -/
def sample_container (tot : Nat) : Container Int :=
  { h := sample_header 1 tot
    float_at := fun o => o
    double_at := fun o => o }

/-- The sample container with a header that declares a bin-index stream of 10 bytes. -/
def short_container : Container Int :=
  { sample_container 3 with h := { sample_header 1 3 with bindex_count := 10 } }

/-- Fresh buffers holding negative values, to tell them from values that were loaded. -/
def sample_heap : Heap Int :=
  { bin_index := fun _ => 0
    DC := fun _ => -1
    AC_exact := fun _ => -2
    qtable := fun _ => -3
    a_xr := fun _ => -4 }

/-! Unfolding of the two loops, one round at a time. -/

theorem ac_loop_zero {α : Type} (E : Env α) (i : Nat) (s : State α) :
    ac_loop E i 0 s = s := rfl

theorem ac_loop_succ {α : Type} (E : Env α) (i m : Nat) (s : State α) :
    ac_loop E i (m + 1) s = ac_slot E i (1 + m) (ac_loop E i m s) := by
  simp [ac_loop, List.range'_concat, List.foldl_append]

theorem blocks_zero {α : Type} (E : Env α) (s : State α) : blocks E 0 s = s := rfl

theorem blocks_succ {α : Type} (E : Env α) (n : Nat) (s : State α) :
    blocks E (n + 1) s = block_step E (blocks E n s) n := by
  simp [blocks, List.range_succ, List.foldl_append]

theorem slots_before_succ (BLK_SZ i m : Nat) :
    slots_before BLK_SZ i (1 + m + 1) = slots_before BLK_SZ i (1 + m) ++ [(i, 1 + m)] := by
  have h1 : 1 + m + 1 - 1 = m + 1 := by omega
  have h2 : 1 + m - 1 = m := by omega
  simp [slots_before, h1, h2, List.range'_concat]

theorem slots_before_next_block (BLK_SZ i : Nat) :
    slots_before BLK_SZ (i + 1) 1 = slots_before BLK_SZ i (1 + (BLK_SZ - 1)) := by
  have h2 : 1 + (BLK_SZ - 1) - 1 = BLK_SZ - 1 := by omega
  simp [slots_before, slots_of_blocks, block_slots, h2]

theorem escapes_before_succ {α : Type} (E : Env α) (i m : Nat) :
    escapes_before E i (1 + m + 1)
      = escapes_before E i (1 + m) + (if primary_escape E (i, 1 + m) then 1 else 0) := by
  simp [escapes_before, slots_before_succ, List.countP_append, List.countP_cons]

theorem exact_before_succ {α : Type} (E : Env α) (i m : Nat) :
    exact_before E i (1 + m + 1)
      = exact_before E i (1 + m) + (if exact_slot E (i, 1 + m) then 1 else 0) := by
  simp [exact_before, slots_before_succ, List.countP_append, List.countP_cons]

/-! The effect of one AC slot and of the inner loop. -/

theorem upd_same {α : Type} (a : Nat → α) (k : Nat) (v : α) : upd a k v k = v := by
  simp [upd]

theorem upd_upd {α : Type} (a : Nat → α) (k : Nat) (v w : α) :
    upd (upd a k v) k w = upd a k w := by
  funext x
  simp only [upd]
  split <;> rfl

theorem secondary_reads_before_succ {α : Type} (E : Env α) (i m : Nat) :
    secondary_reads_before E i (1 + m + 1)
      = secondary_reads_before E i (1 + m)
        + (if (E.USE_QTABLE && primary_escape E (i, 1 + m)) then 1 else 0) := by
  unfold secondary_reads_before
  by_cases hq : E.USE_QTABLE = true
  · simp [hq, escapes_before_succ]
  · have hq2 : E.USE_QTABLE = false := by simpa using hq
    simp [hq2]

theorem ac_slot_spec {α : Type} (E : Env α) (i j : Nat) (s : State α)
    (hpos : s.pos = exact_before E i j)
    (hc : s.c = E.N + secondary_reads_before E i j) :
    (ac_slot E i j s).pos = s.pos + (if exact_slot E (i, j) then 1 else 0)
    ∧ (ac_slot E i j s).c
        = s.c + (if (E.USE_QTABLE && primary_escape E (i, j)) then 1 else 0)
    ∧ (ac_slot E i j s).calls = s.calls
    ∧ (ac_slot E i j s).a_r = s.a_r
    ∧ (ac_slot E i j s).a_xr = upd s.a_xr (i * E.BLK_SZ + j) (ac_value E i j) := by
  unfold ac_slot ac_value exact_slot primary_escape secondary_index
  rw [← hpos]
  by_cases hb : (E.bin_index (i * E.BLK_SZ + j)).val = 255
  · by_cases hq : E.USE_QTABLE = true
    · have hc2 : s.c = E.N + escapes_before E i j := by
        simpa [secondary_reads_before, hq] using hc
      rw [← hc2]
      by_cases hs : (E.bin_index s.c).val = 255
      · simp [hb, hq, hs, upd_same, upd_upd]
      · simp [hb, hq, hs, upd_same, upd_upd]
    · have hq2 : E.USE_QTABLE = false := by simpa using hq
      simp [hb, hq2]
  · simp [hb]

theorem ac_loop_spec {α : Type} (E : Env α) (i : Nat) (s : State α)
    (hpos : s.pos = exact_before E i 1)
    (hc : s.c = E.N + secondary_reads_before E i 1) (m : Nat) :
    (ac_loop E i m s).pos = exact_before E i (1 + m)
    ∧ (ac_loop E i m s).c = E.N + secondary_reads_before E i (1 + m)
    ∧ (ac_loop E i m s).calls = s.calls
    ∧ (ac_loop E i m s).a_r = s.a_r
    ∧ ∀ k, (ac_loop E i m s).a_xr k
        = if i * E.BLK_SZ + 1 ≤ k ∧ k ≤ i * E.BLK_SZ + m then ac_value E i (k - i * E.BLK_SZ)
          else s.a_xr k := by
  induction m with
  | zero =>
    refine ⟨hpos, hc, rfl, rfl, ?_⟩
    intro k
    have : ¬ (i * E.BLK_SZ + 1 ≤ k ∧ k ≤ i * E.BLK_SZ + 0) := by omega
    rw [ac_loop_zero, if_neg this]
  | succ m ih =>
    obtain ⟨ihp, ihc, ihcalls, ihr, ihx⟩ := ih
    obtain ⟨sp, sc, scalls, sr, sx⟩ := ac_slot_spec E i (1 + m) (ac_loop E i m s) ihp ihc
    rw [ac_loop_succ]
    refine ⟨?_, ?_, ?_, ?_, ?_⟩
    · rw [sp, ihp, ← Nat.add_assoc, exact_before_succ]
    · rw [sc, ihc, ← Nat.add_assoc, secondary_reads_before_succ, Nat.add_assoc]
    · rw [scalls, ihcalls]
    · rw [sr, ihr]
    · intro k
      rw [sx]
      simp only [upd]
      by_cases hk : k = i * E.BLK_SZ + (1 + m)
      · have h1 : i * E.BLK_SZ + 1 ≤ k ∧ k ≤ i * E.BLK_SZ + (m + 1) := by omega
        have h2 : k - i * E.BLK_SZ = 1 + m := by omega
        simp [hk, h1, h2]
        subst hk
        simp at h2
        simp [Nat.add_comm]
      · rw [if_neg hk, ihx]
        by_cases h3 : i * E.BLK_SZ + 1 ≤ k ∧ k ≤ i * E.BLK_SZ + m
        · have h4 : i * E.BLK_SZ + 1 ≤ k ∧ k ≤ i * E.BLK_SZ + (m + 1) := by omega
          rw [if_pos h3, if_pos h4]
        · have h4 : ¬ (i * E.BLK_SZ + 1 ≤ k ∧ k ≤ i * E.BLK_SZ + (m + 1)) := by omega
          rw [if_neg h3, if_neg h4]

/-! The effect of one block and of the outer loop. -/

theorem block_step_spec {α : Type} (E : Env α) (i : Nat) (s : State α)
    (hpos : s.pos = exact_before E i 1)
    (hc : s.c = E.N + secondary_reads_before E i 1) :
    (block_step E s i).pos = exact_before E (i + 1) 1
    ∧ (block_step E s i).c = E.N + secondary_reads_before E (i + 1) 1
    ∧ (block_step E s i).calls = s.calls ++ [freq_block E i]
    ∧ ∀ k, (block_step E s i).a_r k
        = if i * E.BLK_SZ ≤ k ∧ k < i * E.BLK_SZ + E.BLK_SZ then
            E.ifft_idct E.BLK_SZ (freq_block E i) (k - i * E.BLK_SZ)
          else s.a_r k := by
  let s0 : State α := block_begin E s i
  obtain ⟨lp, lc, lcalls, lr, lx⟩ := ac_loop_spec E i s0 hpos hc (E.BLK_SZ - 1)
  have hvec : block_of E i (ac_loop E i (E.BLK_SZ - 1) s0).a_xr = freq_block E i := by
    unfold block_of freq_block
    apply List.map_congr_left
    intro j hj
    have hjlt : j < E.BLK_SZ := List.mem_range.mp hj
    rw [lx]
    by_cases h0 : j = 0
    · have : ¬ (i * E.BLK_SZ + 1 ≤ i * E.BLK_SZ + j
          ∧ i * E.BLK_SZ + j ≤ i * E.BLK_SZ + (E.BLK_SZ - 1)) := by omega
      rw [if_neg this]
      simp [s0, block_begin, h0, upd_same, freq_value]
    · have : i * E.BLK_SZ + 1 ≤ i * E.BLK_SZ + j
          ∧ i * E.BLK_SZ + j ≤ i * E.BLK_SZ + (E.BLK_SZ - 1) := by omega
      rw [if_pos this]
      simp [freq_value, h0]
  have hstep : block_step E s i =
      { ac_loop E i (E.BLK_SZ - 1) s0 with
        a_r := fun k =>
          if i * E.BLK_SZ ≤ k ∧ k < i * E.BLK_SZ + E.BLK_SZ then
            E.ifft_idct E.BLK_SZ (block_of E i (ac_loop E i (E.BLK_SZ - 1) s0).a_xr)
              (k - i * E.BLK_SZ)
          else (ac_loop E i (E.BLK_SZ - 1) s0).a_r k
        calls := (ac_loop E i (E.BLK_SZ - 1) s0).calls
          ++ [block_of E i (ac_loop E i (E.BLK_SZ - 1) s0).a_xr]
        trace := (ac_loop E i (E.BLK_SZ - 1) s0).trace
          ++ (List.range E.BLK_SZ).map (fun j => Access.a_xr_read (i * E.BLK_SZ + j))
          ++ (List.range E.BLK_SZ).map (fun j => Access.a_r_write (i * E.BLK_SZ + j)) } := rfl
  rw [hstep]
  refine ⟨?_, ?_, ?_, ?_⟩
  · show (ac_loop E i (E.BLK_SZ - 1) s0).pos = _
    rw [lp]
    unfold exact_before
    rw [slots_before_next_block]
  · show (ac_loop E i (E.BLK_SZ - 1) s0).c = _
    rw [lc]
    unfold secondary_reads_before escapes_before
    rw [slots_before_next_block]
  · show (ac_loop E i (E.BLK_SZ - 1) s0).calls ++ [_] = _
    rw [lcalls, hvec]
    rfl
  · intro k
    show (if _ then _ else (ac_loop E i (E.BLK_SZ - 1) s0).a_r k) = _
    rw [lr, hvec]
    rfl

theorem blocks_spec {α : Type} (E : Env α) (a_xr0 a_r0 : Nat → α) (n : Nat) :
    (blocks E n (init_state E a_xr0 a_r0)).pos = exact_before E n 1
    ∧ (blocks E n (init_state E a_xr0 a_r0)).c = E.N + secondary_reads_before E n 1
    ∧ (blocks E n (init_state E a_xr0 a_r0)).calls = (List.range n).map (freq_block E)
    ∧ ∀ k, (blocks E n (init_state E a_xr0 a_r0)).a_r k
        = if k < n * E.BLK_SZ then
            E.ifft_idct E.BLK_SZ (freq_block E (k / E.BLK_SZ)) (k % E.BLK_SZ)
          else a_r0 k := by
  induction n with
  | zero =>
    refine ⟨?_, ?_, ?_, ?_⟩
    · simp [blocks_zero, init_state, exact_before, slots_before, slots_of_blocks]
    · simp [blocks_zero, init_state, secondary_reads_before, escapes_before, slots_before,
        slots_of_blocks]
    · simp [blocks_zero, init_state]
    · intro k
      simp [blocks_zero, init_state]
  | succ n ih =>
    obtain ⟨ihp, ihc, ihcalls, ihr⟩ := ih
    obtain ⟨bp, bc, bcalls, br⟩ :=
      block_step_spec E n (blocks E n (init_state E a_xr0 a_r0)) ihp ihc
    rw [blocks_succ]
    refine ⟨bp, bc, ?_, ?_⟩
    · rw [bcalls, ihcalls, List.range_succ, List.map_append]
      rfl
    · intro k
      rw [br, ihr]
      by_cases hB : E.BLK_SZ = 0
      · simp [hB]
      · have hBpos : 0 < E.BLK_SZ := Nat.pos_of_ne_zero hB
        by_cases hk : n * E.BLK_SZ ≤ k ∧ k < n * E.BLK_SZ + E.BLK_SZ
        · have h1 : k < (n + 1) * E.BLK_SZ := by rw [Nat.succ_mul]; exact hk.2
          have h2 : k / E.BLK_SZ = n := by
            apply Nat.div_eq_of_lt_le
            · exact hk.1
            · exact h1
          have h3 : k % E.BLK_SZ = k - n * E.BLK_SZ := by
            have := Nat.div_add_mod k E.BLK_SZ
            rw [h2, Nat.mul_comm] at this
            omega
          rw [if_pos hk, if_pos h1, h2, h3]
        · rw [if_neg hk]
          have hiff : k < (n + 1) * E.BLK_SZ ↔ k < n * E.BLK_SZ := by
            rw [Nat.succ_mul]
            constructor
            · intro h
              by_contra hc2
              exact hk ⟨by omega, h⟩
            · intro h
              omega
          by_cases h4 : k < n * E.BLK_SZ
          · rw [if_pos h4, if_pos (hiff.mpr h4)]
          · rw [if_neg h4, if_neg (fun h => h4 (hiff.mp h))]

/-! Invariants of the access trace. -/

theorem ac_slot_trace_below {α : Type} (E : Env α) (L i j : Nat) (s : State α)
    (hk : i * E.BLK_SZ + j < L) (h : trace_below L s) : trace_below L (ac_slot E i j s) := by
  unfold trace_below at *
  intro e he k hek
  unfold ac_slot at he
  by_cases hb : (E.bin_index (i * E.BLK_SZ + j)).val = 255
  · by_cases hq : E.USE_QTABLE = true
    · by_cases hs : (E.bin_index s.c).val = 255
      · simp [hb, hq, hs] at he
        rcases he with he | he | he | he | he | he | he | he <;>
          first
          | exact h e he k hek
          | (subst he; simp [Access.sample_index] at hek <;> omega)
      · simp [hb, hq, hs] at he
        rcases he with he | he | he | he | he | he | he | he <;>
          first
          | exact h e he k hek
          | (subst he; simp [Access.sample_index] at hek <;> omega)
    · have hq2 : E.USE_QTABLE = false := by simpa using hq
      simp [hb, hq2] at he
      rcases he with he | he | he | he <;>
        first
        | exact h e he k hek
        | (subst he; simp [Access.sample_index] at hek <;> omega)
  · simp [hb] at he
    rcases he with he | he | he | he <;>
      first
      | exact h e he k hek
      | (subst he; simp [Access.sample_index] at hek <;> omega)

theorem ac_loop_trace_below {α : Type} (E : Env α) (L i : Nat) (s : State α)
    (h : trace_below L s) (m : Nat) (hm : i * E.BLK_SZ + m < L) :
    trace_below L (ac_loop E i m s) := by
  induction m with
  | zero => exact h
  | succ m ih =>
    rw [ac_loop_succ]
    exact ac_slot_trace_below E L i (1 + m) _ (by omega) (ih (by omega))

theorem block_step_trace_below {α : Type} (E : Env α) (L i : Nat) (s : State α)
    (hB : 0 < E.BLK_SZ) (hL : (i + 1) * E.BLK_SZ ≤ L) (h : trace_below L s) :
    trace_below L (block_step E s i) := by
  rw [Nat.succ_mul] at hL
  have h0 : trace_below L (block_begin E s i) := by
    intro e he k hek
    simp [block_begin] at he
    rcases he with he | he | he
    · exact h e he k hek
    · subst he; simp [Access.sample_index] at hek
    · subst he; simp [Access.sample_index] at hek; omega
  have h1 := ac_loop_trace_below E L i _ h0 (E.BLK_SZ - 1) (by omega)
  intro e he k hek
  unfold block_step at he
  simp only [List.mem_append, List.mem_map, List.mem_range] at he
  rcases he with (he | ⟨j, hj, he⟩) | ⟨j, hj, he⟩
  · exact h1 e he k hek
  · subst he; simp [Access.sample_index] at hek; omega
  · subst he; simp [Access.sample_index] at hek; omega

theorem blocks_trace_below {α : Type} (E : Env α) (L : Nat) (s : State α)
    (hB : 0 < E.BLK_SZ) (h : trace_below L s) (n : Nat) (hn : n * E.BLK_SZ ≤ L) :
    trace_below L (blocks E n s) := by
  induction n with
  | zero => exact h
  | succ n ih =>
    rw [blocks_succ]
    refine block_step_trace_below E L n _ hB hn (ih ?_)
    rw [Nat.succ_mul] at hn
    omega

theorem ac_slot_cursors_match {α : Type} (E : Env α) (i j : Nat) (s : State α)
    (h : cursors_match E s) : cursors_match E (ac_slot E i j s) := by
  unfold cursors_match at *
  obtain ⟨hc, hp⟩ := h
  unfold ac_slot
  by_cases hb : (E.bin_index (i * E.BLK_SZ + j)).val = 255
  · by_cases hq : E.USE_QTABLE = true
    · by_cases hs : (E.bin_index s.c).val = 255
      · simp [hb, hq, hs, List.countP_append, List.countP_cons, Access.is_secondary,
          Access.is_exact]
        omega
      · simp [hb, hq, hs, List.countP_append, List.countP_cons, Access.is_secondary,
          Access.is_exact]
        omega
    · have hq2 : E.USE_QTABLE = false := by simpa using hq
      simp [hb, hq2, List.countP_append, List.countP_cons, Access.is_secondary,
        Access.is_exact]
      omega
  · simp [hb, List.countP_append, List.countP_cons, Access.is_secondary, Access.is_exact]
    omega

theorem ac_loop_cursors_match {α : Type} (E : Env α) (i : Nat) (s : State α)
    (h : cursors_match E s) (m : Nat) : cursors_match E (ac_loop E i m s) := by
  induction m with
  | zero => exact h
  | succ m ih =>
    rw [ac_loop_succ]
    exact ac_slot_cursors_match E i (1 + m) _ ih

theorem block_step_cursors_match {α : Type} (E : Env α) (i : Nat) (s : State α)
    (h : cursors_match E s) : cursors_match E (block_step E s i) := by
  have h0 : cursors_match E (block_begin E s i) := by
    unfold cursors_match at *
    simp [block_begin, List.countP_append, List.countP_cons, Access.is_secondary, Access.is_exact, h.1,
      h.2]
  have h1 := ac_loop_cursors_match E i _ h0 (E.BLK_SZ - 1)
  unfold cursors_match at *
  unfold block_step
  have hz1 : ∀ l : List Nat, List.countP Access.is_secondary
      (l.map (fun j => Access.a_xr_read (i * E.BLK_SZ + j))) = 0 := by
    intro l; induction l <;> simp_all [List.countP_cons, Access.is_secondary]
  have hz2 : ∀ l : List Nat, List.countP Access.is_secondary
      (l.map (fun j => Access.a_r_write (i * E.BLK_SZ + j))) = 0 := by
    intro l; induction l <;> simp_all [List.countP_cons, Access.is_secondary]
  have hz3 : ∀ l : List Nat, List.countP Access.is_exact
      (l.map (fun j => Access.a_xr_read (i * E.BLK_SZ + j))) = 0 := by
    intro l; induction l <;> simp_all [List.countP_cons, Access.is_exact]
  have hz4 : ∀ l : List Nat, List.countP Access.is_exact
      (l.map (fun j => Access.a_r_write (i * E.BLK_SZ + j))) = 0 := by
    intro l; induction l <;> simp_all [List.countP_cons, Access.is_exact]
  simp only [List.countP_append, hz1, hz2, hz3, hz4, Nat.add_zero]
  exact h1

theorem blocks_cursors_match {α : Type} (E : Env α) (s : State α)
    (h : cursors_match E s) (n : Nat) : cursors_match E (blocks E n s) := by
  induction n with
  | zero => exact h
  | succ n ih =>
    rw [blocks_succ]
    exact block_step_cursors_match E n _ ih

/-! The state at a slot, and the block handed to the inverse transform. -/

theorem slot_state_spec {α : Type} (E : Env α) (a_xr0 a_r0 : Nat → α) (i j : Nat)
    (hj1 : 1 ≤ j) :
    (slot_state E a_xr0 a_r0 i j).pos = exact_before E i j
    ∧ (slot_state E a_xr0 a_r0 i j).c = E.N + secondary_reads_before E i j := by
  obtain ⟨bp, bc, _, _⟩ := blocks_spec E a_xr0 a_r0 i
  have hp : (block_begin E (blocks E i (init_state E a_xr0 a_r0)) i).pos
      = exact_before E i 1 := bp
  have hc : (block_begin E (blocks E i (init_state E a_xr0 a_r0)) i).c
      = E.N + secondary_reads_before E i 1 := bc
  obtain ⟨lp, lc, _, _, _⟩ := ac_loop_spec E i _ hp hc (j - 1)
  have hj : 1 + (j - 1) = j := by omega
  rw [hj] at lp lc
  exact ⟨lp, lc⟩

theorem handed_block_loop {α : Type} (E : Env α) (a_xr0 a_r0 : Nat → α) (i j : Nat)
    (hi : i < nblk E.N E.BLK_SZ) (hj : j < E.BLK_SZ) :
    handed (block_loop E a_xr0 a_r0) i j = some (freq_value E i j) := by
  unfold handed block_loop
  rw [(blocks_spec E a_xr0 a_r0 (nblk E.N E.BLK_SZ)).2.2.1]
  simp [List.getElem?_map, List.getElem?_range hi, freq_block, List.getElem?_range hj]

theorem exact_slot_direct {α : Type} (E : Env α) (hq : E.USE_QTABLE = false) :
    exact_slot E = primary_escape E := by
  funext p
  simp [exact_slot, hq]

theorem exact_before_direct {α : Type} (E : Env α) (hq : E.USE_QTABLE = false) (i j : Nat) :
    exact_before E i j = escapes_before E i j := by
  unfold exact_before escapes_before
  rw [exact_slot_direct E hq]

theorem blk_pos_of_lt_nblk {N BLK_SZ i : Nat} (hi : i < nblk N BLK_SZ) : 0 < BLK_SZ := by
  unfold nblk at hi
  rcases Nat.eq_zero_or_pos BLK_SZ with h | h
  · subst h; simp at hi
  · exact h

/-! The rescaling loop, the untouched tail of the output, and the cursor bounds. -/

theorem rescale_loop_spec {α : Type} (mul : α → α → α) (xscale : α) (a_r : Nat → α)
    (N k : Nat) :
    rescale_loop mul xscale N a_r k = if k < N then mul (a_r k) xscale else a_r k := by
  induction N generalizing k with
  | zero => simp [rescale_loop]
  | succ n ih =>
    have hstep : rescale_loop mul xscale (n + 1) a_r
        = upd (rescale_loop mul xscale n a_r) n (mul (rescale_loop mul xscale n a_r n) xscale) := by
      simp [rescale_loop, List.range_succ, List.foldl_append]
    have hn : rescale_loop mul xscale n a_r n = a_r n := by
      have := ih n
      simpa using this
    rw [hstep, hn]
    simp only [upd]
    by_cases hk : k = n
    · subst hk
      simp
    · rw [if_neg hk, ih]
      by_cases hlt : k < n
      · have : k < n + 1 := by omega
        simp [hlt, this]
      · have : ¬ k < n + 1 := by omega
        simp [hlt, this]

theorem a_r_tail_untouched {α : Type} (E : Env α) (a_xr0 a_r0 : Nat → α) (k : Nat)
    (hk : nblk E.N E.BLK_SZ * E.BLK_SZ ≤ k) : (block_loop E a_xr0 a_r0).a_r k = a_r0 k := by
  unfold block_loop
  rw [(blocks_spec E a_xr0 a_r0 (nblk E.N E.BLK_SZ)).2.2.2 k]
  have : ¬ k < nblk E.N E.BLK_SZ * E.BLK_SZ := by omega
  rw [if_neg this]

theorem slots_of_blocks_length (BLK_SZ n : Nat) :
    (slots_of_blocks BLK_SZ n).length = n * (BLK_SZ - 1) := by
  induction n with
  | zero => simp [slots_of_blocks]
  | succ n ih =>
    simp [slots_of_blocks, block_slots, ih, Nat.succ_mul]

theorem slots_before_one (BLK_SZ n : Nat) :
    slots_before BLK_SZ n 1 = slots_of_blocks BLK_SZ n := by
  simp [slots_before]

theorem nblk_mul_le (N BLK_SZ : Nat) : nblk N BLK_SZ * BLK_SZ ≤ N :=
  Nat.div_mul_le_self N BLK_SZ

/-- The cursors never reach `2 ^ 32` when `N` fits a C `int`: at the end of the block loop
`pos ≤ N` and `c ≤ 2 * N`, and both only ever grow. -/
theorem cursors_bounded {α : Type} (E : Env α) (a_xr0 a_r0 : Nat → α) :
    (block_loop E a_xr0 a_r0).pos ≤ E.N ∧ (block_loop E a_xr0 a_r0).c ≤ E.N + E.N := by
  obtain ⟨hp, hc, _, _⟩ := blocks_spec E a_xr0 a_r0 (nblk E.N E.BLK_SZ)
  have hlen : (slots_of_blocks E.BLK_SZ (nblk E.N E.BLK_SZ)).length ≤ E.N := by
    rw [slots_of_blocks_length]
    calc nblk E.N E.BLK_SZ * (E.BLK_SZ - 1)
        ≤ nblk E.N E.BLK_SZ * E.BLK_SZ := Nat.mul_le_mul_left _ (Nat.sub_le _ _)
      _ ≤ E.N := nblk_mul_le _ _
  have h1 : exact_before E (nblk E.N E.BLK_SZ) 1 ≤ E.N := by
    unfold exact_before
    rw [slots_before_one]
    exact Nat.le_trans (List.countP_le_length _) hlen
  have h2 : secondary_reads_before E (nblk E.N E.BLK_SZ) 1 ≤ E.N := by
    unfold secondary_reads_before escapes_before
    rw [slots_before_one]
    split
    · exact Nat.le_trans (List.countP_le_length _) hlen
    · exact Nat.zero_le _
  unfold block_loop
  rw [hp, hc]
  exact ⟨h1, by omega⟩

/-! The order of the loads through the two cursors. -/

theorem ac_slot_cursors_in_order {α : Type} (E : Env α) (i j : Nat) (s : State α)
    (h : cursors_in_order E s) : cursors_in_order E (ac_slot E i j s) := by
  unfold cursors_in_order at *
  obtain ⟨hN, hsec, hex⟩ := h
  have hc1 : s.c + 1 - E.N = (s.c - E.N) + 1 := by omega
  have hc2 : E.N + (s.c - E.N) = s.c := by omega
  unfold ac_slot
  by_cases hb : (E.bin_index (i * E.BLK_SZ + j)).val = 255
  · by_cases hq : E.USE_QTABLE = true
    · by_cases hs : (E.bin_index s.c).val = 255
      · simp [hb, hq, hs, List.filterMap_append, List.filterMap_cons, Access.secondary_pos,
          Access.exact_pos, hsec, hex, hc1, hc2, List.range'_concat]
        omega
      · simp [hb, hq, hs, List.filterMap_append, List.filterMap_cons, Access.secondary_pos,
          Access.exact_pos, hsec, hex, hc1, hc2, List.range'_concat]
        omega
    · have hq2 : E.USE_QTABLE = false := by simpa using hq
      simp [hb, hq2, List.filterMap_append, List.filterMap_cons, Access.secondary_pos,
        Access.exact_pos, hsec, hex, List.range'_concat]
      omega
  · simp [hb, List.filterMap_append, List.filterMap_cons, Access.secondary_pos,
      Access.exact_pos, hsec, hex]
    omega

theorem ac_loop_cursors_in_order {α : Type} (E : Env α) (i : Nat) (s : State α)
    (h : cursors_in_order E s) (m : Nat) : cursors_in_order E (ac_loop E i m s) := by
  induction m with
  | zero => exact h
  | succ m ih =>
    rw [ac_loop_succ]
    exact ac_slot_cursors_in_order E i (1 + m) _ ih

theorem block_step_cursors_in_order {α : Type} (E : Env α) (i : Nat) (s : State α)
    (h : cursors_in_order E s) : cursors_in_order E (block_step E s i) := by
  have h0 : cursors_in_order E (block_begin E s i) := by
    unfold cursors_in_order at *
    simp [block_begin, List.filterMap_append, List.filterMap_cons, Access.secondary_pos,
      Access.exact_pos, h.1, h.2.1, h.2.2]
  have h1 := ac_loop_cursors_in_order E i _ h0 (E.BLK_SZ - 1)
  unfold cursors_in_order at *
  unfold block_step
  have hz1 : ∀ l : List Nat, List.filterMap Access.secondary_pos
      (l.map (fun j => Access.a_xr_read (i * E.BLK_SZ + j))) = [] := by
    intro l; induction l <;> simp_all [List.filterMap_cons, Access.secondary_pos]
  have hz2 : ∀ l : List Nat, List.filterMap Access.secondary_pos
      (l.map (fun j => Access.a_r_write (i * E.BLK_SZ + j))) = [] := by
    intro l; induction l <;> simp_all [List.filterMap_cons, Access.secondary_pos]
  have hz3 : ∀ l : List Nat, List.filterMap Access.exact_pos
      (l.map (fun j => Access.a_xr_read (i * E.BLK_SZ + j))) = [] := by
    intro l; induction l <;> simp_all [List.filterMap_cons, Access.exact_pos]
  have hz4 : ∀ l : List Nat, List.filterMap Access.exact_pos
      (l.map (fun j => Access.a_r_write (i * E.BLK_SZ + j))) = [] := by
    intro l; induction l <;> simp_all [List.filterMap_cons, Access.exact_pos]
  simp only [List.filterMap_append, hz1, hz2, hz3, hz4, List.append_nil]
  exact h1

theorem blocks_cursors_in_order {α : Type} (E : Env α) (s : State α)
    (h : cursors_in_order E s) (n : Nat) : cursors_in_order E (blocks E n s) := by
  induction n with
  | zero => exact h
  | succ n ih =>
    rw [blocks_succ]
    exact block_step_cursors_in_order E n _ ih

theorem block_loop_cursors_in_order {α : Type} (E : Env α) (a_xr0 a_r0 : Nat → α) :
    cursors_in_order E (block_loop E a_xr0 a_r0) := by
  unfold block_loop
  apply blocks_cursors_in_order
  simp [cursors_in_order, init_state]

theorem block_loop_final_cursors {α : Type} (E : Env α) (a_xr0 a_r0 : Nat → α) :
    (block_loop E a_xr0 a_r0).pos
        = (slots_of_blocks E.BLK_SZ (nblk E.N E.BLK_SZ)).countP (exact_slot E)
    ∧ (block_loop E a_xr0 a_r0).c
        = E.N + (if E.USE_QTABLE then
            (slots_of_blocks E.BLK_SZ (nblk E.N E.BLK_SZ)).countP (primary_escape E)
          else 0) := by
  obtain ⟨hp, hc, _, _⟩ := blocks_spec E a_xr0 a_r0 (nblk E.N E.BLK_SZ)
  unfold block_loop
  rw [hp, hc]
  simp [exact_before, secondary_reads_before, escapes_before, slots_before_one]

/-! Two decodes that build the same blocks. -/

theorem block_loop_congr {α : Type} (E1 E2 : Env α) (x1 x2 a_r0 : Nat → α)
    (hB : E1.BLK_SZ = E2.BLK_SZ) (hN : E1.N = E2.N) (hI : E1.ifft_idct = E2.ifft_idct)
    (hv : ∀ i, i < nblk E1.N E1.BLK_SZ → freq_block E1 i = freq_block E2 i) :
    (block_loop E1 x1 a_r0).calls = (block_loop E2 x2 a_r0).calls
    ∧ (block_loop E1 x1 a_r0).a_r = (block_loop E2 x2 a_r0).a_r := by
  obtain ⟨_, _, c1, r1⟩ := blocks_spec E1 x1 a_r0 (nblk E1.N E1.BLK_SZ)
  obtain ⟨_, _, c2, r2⟩ := blocks_spec E2 x2 a_r0 (nblk E2.N E2.BLK_SZ)
  unfold block_loop
  refine ⟨?_, ?_⟩
  · rw [c1, c2, ← hB, ← hN]
    apply List.map_congr_left
    intro i hi
    exact hv i (List.mem_range.mp hi)
  · funext k
    rw [r1, r2, ← hB, ← hN, ← hI]
    by_cases hk : k < nblk E1.N E1.BLK_SZ * E1.BLK_SZ
    · have hlt : k / E1.BLK_SZ < nblk E1.N E1.BLK_SZ :=
        Nat.div_lt_of_lt_mul (by rw [Nat.mul_comm]; exact hk)
      rw [if_pos hk, if_pos hk, hv _ hlt]
    · rw [if_neg hk, if_neg hk]

theorem freq_block_eq_of_hits {α : Type} (E1 E2 : Env α) (i : Nat)
    (hB : E1.BLK_SZ = E2.BLK_SZ) (hDC : E1.DC i = E2.DC i)
    (hC : E1.bin_center = E2.bin_center)
    (hbin : ∀ j, 1 ≤ j → j < E1.BLK_SZ →
      E1.bin_index (i * E1.BLK_SZ + j) = E2.bin_index (i * E1.BLK_SZ + j))
    (hne : ∀ j, 1 ≤ j → j < E1.BLK_SZ → (E1.bin_index (i * E1.BLK_SZ + j)).val ≠ 255) :
    freq_block E1 i = freq_block E2 i := by
  unfold freq_block
  rw [← hB]
  apply List.map_congr_left
  intro j hj
  have hjlt : j < E1.BLK_SZ := List.mem_range.mp hj
  by_cases h0 : j = 0
  · simp [freq_value, h0, hDC]
  · have h1 : 1 ≤ j := Nat.pos_of_ne_zero h0
    have hn1 := hne j h1 hjlt
    have hn2 : (E2.bin_index (i * E2.BLK_SZ + j)).val ≠ 255 := by
      rw [← hB, ← hbin j h1 hjlt]; exact hn1
    have hb := hbin j h1 hjlt
    simp only [freq_value, h0, if_false, ac_value, hn1, hn2]
    rw [← hB, hb, hC]

/-! The quantizer-table cell 0 is never loaded. -/

theorem ac_slot_qtable_reads_positive {α : Type} (E : Env α) (i j : Nat) (s : State α)
    (hj : 1 ≤ j) (h : qtable_reads_positive s) : qtable_reads_positive (ac_slot E i j s) := by
  unfold qtable_reads_positive at *
  intro e he j2 hej
  unfold ac_slot at he
  by_cases hb : (E.bin_index (i * E.BLK_SZ + j)).val = 255
  · by_cases hq : E.USE_QTABLE = true
    · by_cases hs : (E.bin_index s.c).val = 255
      · simp [hb, hq, hs] at he
        rcases he with he | he | he | he | he | he | he | he <;>
          first
          | exact h e he j2 hej
          | (subst he; simp at hej <;> omega)
      · simp [hb, hq, hs] at he
        rcases he with he | he | he | he | he | he | he | he <;>
          first
          | exact h e he j2 hej
          | (subst he; simp at hej <;> omega)
    · have hq2 : E.USE_QTABLE = false := by simpa using hq
      simp [hb, hq2] at he
      rcases he with he | he | he | he <;>
        first
        | exact h e he j2 hej
        | (subst he; simp at hej)
  · simp [hb] at he
    rcases he with he | he | he | he <;>
      first
      | exact h e he j2 hej
      | (subst he; simp at hej)

theorem ac_loop_qtable_reads_positive {α : Type} (E : Env α) (i : Nat) (s : State α)
    (h : qtable_reads_positive s) (m : Nat) : qtable_reads_positive (ac_loop E i m s) := by
  induction m with
  | zero => exact h
  | succ m ih =>
    rw [ac_loop_succ]
    exact ac_slot_qtable_reads_positive E i (1 + m) _ (by omega) ih

theorem block_step_qtable_reads_positive {α : Type} (E : Env α) (i : Nat) (s : State α)
    (h : qtable_reads_positive s) : qtable_reads_positive (block_step E s i) := by
  have h0 : qtable_reads_positive (block_begin E s i) := by
    intro e he j hej
    simp [block_begin] at he
    rcases he with he | he | he
    · exact h e he j hej
    · subst he; simp at hej
    · subst he; simp at hej
  have h1 := ac_loop_qtable_reads_positive E i _ h0 (E.BLK_SZ - 1)
  intro e he j hej
  unfold block_step at he
  simp only [List.mem_append, List.mem_map, List.mem_range] at he
  rcases he with (he | ⟨j2, _, he⟩) | ⟨j2, _, he⟩
  · exact h1 e he j hej
  · subst he; simp at hej
  · subst he; simp at hej

theorem block_loop_qtable_reads_positive {α : Type} (E : Env α) (a_xr0 a_r0 : Nat → α) :
    qtable_reads_positive (block_loop E a_xr0 a_r0) := by
  unfold block_loop
  generalize nblk E.N E.BLK_SZ = n
  induction n with
  | zero =>
    intro e he
    simp [blocks_zero, init_state] at he
  | succ n ih =>
    rw [blocks_succ]
    exact block_step_qtable_reads_positive E n _ ih

/-! The escape path under `USE_QTABLE`, and the output beyond the last whole block. -/

theorem handed_escape_qtable {α : Type} (E : Env α) (a_xr0 a_r0 : Nat → α) (i j : Nat)
    (hq : E.USE_QTABLE = true) (hi : i < nblk E.N E.BLK_SZ) (hj1 : 1 ≤ j)
    (hj : j < E.BLK_SZ) (hb : (E.bin_index (i * E.BLK_SZ + j)).val = 255) :
    handed (block_loop E a_xr0 a_r0) i j
      = some (E.mul
          (if (E.bin_index (slot_state E a_xr0 a_r0 i j).c).val = 255 then
            E.AC_exact (slot_state E a_xr0 a_r0 i j).pos
          else E.bin_center (E.bin_index (slot_state E a_xr0 a_r0 i j).c).val)
          (E.qtable j)) := by
  have h0 : j ≠ 0 := by omega
  obtain ⟨hp, hc⟩ := slot_state_spec E a_xr0 a_r0 i j hj1
  simp only [secondary_reads_before, hq, if_true] at hc
  rw [handed_block_loop E a_xr0 a_r0 i j hi hj, hp, hc]
  by_cases hs : (E.bin_index (E.N + escapes_before E i j)).val = 255
  · have hs2 : (secondary_index E i j).val = 255 := hs
    simp [freq_value, h0, ac_value, hb, hq, hs, hs2]
  · have hs2 : (secondary_index E i j).val ≠ 255 := hs
    simp [freq_value, h0, ac_value, hb, hq, hs, hs2]
    rfl

theorem tail_sample_untouched {α : Type} (B : Build α) (h : Header α) (buf : Buffers α)
    (a_xr0 a_r0 : Nat → α) (k : Nat)
    (hk : nblk h.num_elements B.BLK_SZ * B.BLK_SZ ≤ k)
    (hne : B.ops.ne h.scaling_factor B.ops.one = false) :
    (dctz_decompress B h buf a_xr0 a_r0).a_r k = a_r0 k := by
  have h1 : (dctz_decompress B h buf a_xr0 a_r0).a_r
      = (block_loop (env_of B h buf) a_xr0 a_r0).a_r := by
    simp [dctz_decompress, rescale, hne]
  rw [h1]
  exact a_r_tail_untouched (env_of B h buf) a_xr0 a_r0 k hk

/-! The buffers the front half sets up. -/

theorem copy_to_bin_indexz {α : Type} (B : Build α) (S : Setting α) (h : Header α) :
    copy_to B S h Dest.bin_indexz
      = { dst := Dest.bin_indexz, src := cur_p_bindex S, len := h.bindex_sz_compressed } := by
  simp [copy_to, memcpys]

theorem copy_to_DCz {α : Type} (B : Build α) (S : Setting α) (h : Header α) :
    copy_to B S h Dest.DCz
      = { dst := Dest.DCz, src := cur_p_DC S h, len := h.DC_sz_compressed } := by
  simp [copy_to, memcpys]

theorem copy_to_AC_exact {α : Type} (B : Build α) (S : Setting α) (h : Header α) :
    copy_to B S h Dest.AC_exact
      = { dst := Dest.AC_exact, src := cur_p_AC_exact S h,
          len := h.AC_exact_sz_compressed } := by
  simp [copy_to, memcpys]

theorem copy_to_qtable {α : Type} (B : Build α) (S : Setting α) (h : Header α)
    (hq : B.USE_QTABLE = true) :
    copy_to B S h Dest.qtable
      = { dst := Dest.qtable, src := cur_p_qtable S h, len := B.BLK_SZ * sizeof_double } := by
  simp [copy_to, memcpys, hq]

theorem cell_after_whole {α : Type} (S : Setting α) (n w k : Nat) (x fresh : α)
    (h : (k + 1) * w ≤ n) : cell_after S n w k x fresh = x := by
  simp [cell_after, h]

theorem cell_after_none {α : Type} (S : Setting α) (n w k : Nat) (x fresh : α)
    (hw : 0 < w) (h : n ≤ k * w) : cell_after S n w k x fresh = fresh := by
  have h1 : ¬ ((k + 1) * w ≤ n) := by
    rw [Nat.succ_mul]
    omega
  have h2 : ¬ (k * w < n) := by omega
  simp [cell_after, h1, h2]

theorem elem_size_pos {α : Type} (S : Setting α) : 0 < elem_size S := by
  unfold elem_size sizeof_float sizeof_double
  split <;> decide

theorem load_buffers_qtable {α : Type} (B : Build α) (S : Setting α) (C : Container α)
    (heap : Heap α) (hq : B.USE_QTABLE = true) (j : Nat) (hj : j < B.BLK_SZ) :
    (load_buffers B S C heap).qtable j
      = C.double_at (cur_p_qtable S C.h + j * sizeof_double) := by
  have hw : (j + 1) * sizeof_double ≤ B.BLK_SZ * sizeof_double :=
    Nat.mul_le_mul_right _ hj
  simp only [load_buffers, copy_to_qtable B S C.h hq]
  exact cell_after_whole S _ _ _ _ _ hw

theorem load_buffers_AC_exact {α : Type} (B : Build α) (S : Setting α) (C : Container α)
    (heap : Heap α) (k : Nat) (hk : (k + 1) * elem_size S ≤ C.h.AC_exact_sz_compressed) :
    (load_buffers B S C heap).AC_exact k
      = elem_at S C (cur_p_AC_exact S C.h + k * elem_size S) := by
  simp only [load_buffers, copy_to_AC_exact]
  exact cell_after_whole S _ _ _ _ _ hk

theorem load_buffers_DC_whole {α : Type} (B : Build α) (S : Setting α) (C : Container α)
    (heap : Heap α) (i : Nat)
    (hi : (i + 1) * elem_size S
      ≤ written (DC_request B S C.h) (S.inflate_DC (DC_request B S C.h))) :
    (load_buffers B S C heap).DC i = (S.inflate_DC (DC_request B S C.h)).out i := by
  simp only [load_buffers]
  exact cell_after_whole S _ _ _ _ _ hi

theorem load_buffers_DC_none {α : Type} (B : Build α) (S : Setting α) (C : Container α)
    (heap : Heap α) (i : Nat)
    (hi : written (DC_request B S C.h) (S.inflate_DC (DC_request B S C.h))
      ≤ i * elem_size S) :
    (load_buffers B S C heap).DC i = heap.DC i := by
  simp only [load_buffers]
  exact cell_after_none S _ _ _ _ _ (elem_size_pos S) hi

theorem load_buffers_bin_index_whole {α : Type} (B : Build α) (S : Setting α)
    (C : Container α) (heap : Heap α) (k : Nat)
    (hk : k < written (bin_index_request B S C.h)
      (S.inflate_bin_index (bin_index_request B S C.h))) :
    (load_buffers B S C heap).bin_index k
      = (S.inflate_bin_index (bin_index_request B S C.h)).out k := by
  have : (k + 1) * sizeof_uchar
      ≤ written (bin_index_request B S C.h)
        (S.inflate_bin_index (bin_index_request B S C.h)) := by
    simp only [sizeof_uchar, Nat.mul_one]
    omega
  simp only [load_buffers, if_pos this]

theorem load_buffers_bin_index_none {α : Type} (B : Build α) (S : Setting α)
    (C : Container α) (heap : Heap α) (k : Nat)
    (hk : written (bin_index_request B S C.h)
      (S.inflate_bin_index (bin_index_request B S C.h)) ≤ k) :
    (load_buffers B S C heap).bin_index k = heap.bin_index k := by
  have : ¬ ((k + 1) * sizeof_uchar
      ≤ written (bin_index_request B S C.h)
        (S.inflate_bin_index (bin_index_request B S C.h))) := by
    simp only [sizeof_uchar, Nat.mul_one]
    omega
  simp only [load_buffers, if_neg this]

theorem mem_slots_of_blocks {BLK_SZ n : Nat} {p : Nat × Nat}
    (hp : p ∈ slots_of_blocks BLK_SZ n) : p.1 < n ∧ 1 ≤ p.2 ∧ p.2 < BLK_SZ := by
  induction n with
  | zero => simp [slots_of_blocks] at hp
  | succ n ih =>
    simp only [slots_of_blocks, List.mem_append] at hp
    rcases hp with hp | hp
    · obtain ⟨h1, h2, h3⟩ := ih hp
      exact ⟨by omega, h2, h3⟩
    · simp only [block_slots, List.mem_map, List.mem_range'_1] at hp
      obtain ⟨j, ⟨hj1, hj2⟩, hjp⟩ := hp
      subst hjp
      exact ⟨by simp, hj1, by simp; omega⟩

theorem bin_index_request_eq {α : Type} (B : Build α) (S : Setting α) (h : Header α) :
    bin_index_request B S h
      = { input := { dst := Dest.bin_indexz, src := S.sizeof_header,
                     len := h.bindex_sz_compressed }
          avail_in := S.compressBound (ucompSize_binindex B h)
          avail_out := ucompSize_binindex B h } := by
  simp [bin_index_request, copy_to_bin_indexz, cur_p_bindex]

theorem DC_request_eq {α : Type} (B : Build α) (S : Setting α) (h : Header α) :
    DC_request B S h
      = { input := { dst := Dest.DCz, src := S.sizeof_header + h.bindex_sz_compressed,
                     len := h.DC_sz_compressed }
          avail_in := S.compressBound (ucompSize_DC B h)
          avail_out := ucompSize_DC B h } := by
  simp [DC_request, copy_to_DCz, cur_p_DC, cur_p_bindex]

theorem handed_hit {α : Type} (E : Env α) (a_xr0 a_r0 : Nat → α) (i j : Nat)
    (hi : i < nblk E.N E.BLK_SZ) (hj1 : 1 ≤ j) (hj : j < E.BLK_SZ)
    (hb : (E.bin_index (i * E.BLK_SZ + j)).val ≠ 255) :
    handed (block_loop E a_xr0 a_r0) i j
      = some (E.bin_center (E.bin_index (i * E.BLK_SZ + j)).val) := by
  have h0 : j ≠ 0 := by omega
  rw [handed_block_loop E a_xr0 a_r0 i j hi hj]
  simp [freq_value, h0, ac_value, hb]

theorem handed_DC {α : Type} (E : Env α) (a_xr0 a_r0 : Nat → α) (i : Nat)
    (hi : i < nblk E.N E.BLK_SZ) :
    handed (block_loop E a_xr0 a_r0) i 0 = some (E.DC i) := by
  rw [handed_block_loop E a_xr0 a_r0 i 0 hi (blk_pos_of_lt_nblk hi)]
  simp [freq_value]

/-! The call as a whole, and the escape path in either mode. -/

theorem call_returned {α : Type} (A : Nat → Nat → Bool) (B : Build α) (S : Setting α)
    (C : Container α) (heap : Heap α) (a_r0 : Nat → α) (r : Result α)
    (hret : dctz_decompress_call A B S C heap a_r0 = Outcome.returned r) :
    r = dctz_decompress_container B S C heap a_r0 := by
  unfold dctz_decompress_call at hret
  split at hret
  · injection hret with h
    exact h.symm
  · cases hret

theorem call_returns_of_allocated {α : Type} (A : Nat → Nat → Bool) (B : Build α)
    (S : Setting α) (C : Container α) (heap : Heap α) (a_r0 : Nat → α)
    (hA : all_allocated A 0 (mallocs B S C.h) = true) :
    dctz_decompress_call A B S C heap a_r0
      = Outcome.returned (dctz_decompress_container B S C heap a_r0) := by
  simp [dctz_decompress_call, hA]

theorem call_exits_of_failed {α : Type} (A : Nat → Nat → Bool) (B : Build α)
    (S : Setting α) (C : Container α) (heap : Heap α) (a_r0 : Nat → α)
    (hA : all_allocated A 0 (mallocs B S C.h) = false) :
    dctz_decompress_call A B S C heap a_r0 = Outcome.exited 1 := by
  simp [dctz_decompress_call, hA]

theorem handed_escape_direct {α : Type} (E : Env α) (a_xr0 a_r0 : Nat → α) (i j : Nat)
    (hq : E.USE_QTABLE = false) (hi : i < nblk E.N E.BLK_SZ) (hj1 : 1 ≤ j)
    (hj : j < E.BLK_SZ) (hb : (E.bin_index (i * E.BLK_SZ + j)).val = 255) :
    handed (block_loop E a_xr0 a_r0) i j
      = some (E.AC_exact (slot_state E a_xr0 a_r0 i j).pos) := by
  have h0 : j ≠ 0 := by omega
  rw [handed_block_loop E a_xr0 a_r0 i j hi hj, (slot_state_spec E a_xr0 a_r0 i j hj1).1]
  simp [freq_value, h0, ac_value, hb, hq]

theorem handed_escape {α : Type} (E : Env α) (a_xr0 a_r0 : Nat → α) (i j : Nat)
    (hi : i < nblk E.N E.BLK_SZ) (hj1 : 1 ≤ j) (hj : j < E.BLK_SZ)
    (hb : (E.bin_index (i * E.BLK_SZ + j)).val = 255) :
    handed (block_loop E a_xr0 a_r0) i j
      = some (if E.USE_QTABLE = true then
          E.mul
            (if (E.bin_index (slot_state E a_xr0 a_r0 i j).c).val = 255 then
              E.AC_exact (slot_state E a_xr0 a_r0 i j).pos
            else E.bin_center (E.bin_index (slot_state E a_xr0 a_r0 i j).c).val)
            (E.qtable j)
        else E.AC_exact (slot_state E a_xr0 a_r0 i j).pos) := by
  by_cases hq : E.USE_QTABLE = true
  · rw [if_pos hq]
    exact handed_escape_qtable E a_xr0 a_r0 i j hq hi hj1 hj hb
  · rw [if_neg hq]
    have hq2 : E.USE_QTABLE = false := by simpa using hq
    exact handed_escape_direct E a_xr0 a_r0 i j hq2 hi hj1 hj hb

theorem exact_pos_eq_some (e : Access) (k : Nat) :
    e.exact_pos = some k ↔ e = Access.AC_exact_read k := by
  cases e <;> simp [Access.exact_pos]

theorem secondary_pos_eq_some (e : Access) (k : Nat) :
    e.secondary_pos = some k ↔ e = Access.secondary_read k := by
  cases e <;> simp [Access.secondary_pos]

theorem exact_loads_present {α : Type} (E : Env α) (a_xr0 a_r0 : Nat → α) (k : Nat)
    (hk : k < (block_loop E a_xr0 a_r0).pos) :
    Access.AC_exact_read k ∈ (block_loop E a_xr0 a_r0).trace := by
  obtain ⟨_, _, hex⟩ := block_loop_cursors_in_order E a_xr0 a_r0
  have hmem : k ∈ (block_loop E a_xr0 a_r0).trace.filterMap Access.exact_pos := by
    rw [hex, List.mem_range'_1]
    omega
  obtain ⟨e, he, hek⟩ := List.mem_filterMap.mp hmem
  rw [exact_pos_eq_some] at hek
  rw [← hek]
  exact he

theorem secondary_loads_present {α : Type} (E : Env α) (a_xr0 a_r0 : Nat → α) (k : Nat)
    (hN : E.N ≤ k) (hk : k < (block_loop E a_xr0 a_r0).c) :
    Access.secondary_read k ∈ (block_loop E a_xr0 a_r0).trace := by
  obtain ⟨_, hsec, _⟩ := block_loop_cursors_in_order E a_xr0 a_r0
  have hmem : k ∈ (block_loop E a_xr0 a_r0).trace.filterMap Access.secondary_pos := by
    rw [hsec, List.mem_range'_1]
    omega
  obtain ⟨e, he, hek⟩ := List.mem_filterMap.mp hmem
  rw [secondary_pos_eq_some] at hek
  rw [← hek]
  exact he

/-! The claims. -/

/-- C1. Direct mode (`USE_QTABLE` off): for every block `i < nblk` and position
`1 ≤ j < BLK_SZ`, with `b = bin_index[i*BLK_SZ+j]`, the value at position `j` of the block
handed to the inverse transform is `bin_center[b]` when `b ≠ 255` and `AC_exact[t]` when
`b = 255`, where `t` is the number of slots with primary index 255 that precede the slot
in (block, position) order; `t` is also the value of the cursor `pos` when the slot is
reached, so the AC-exact values are consumed in storage order, one per escape. -/
theorem C1_direct_mode_values {α : Type} (E : Env α) (a_xr0 a_r0 : Nat → α) (i j : Nat)
    (hq : E.USE_QTABLE = false) (hi : i < nblk E.N E.BLK_SZ) (hj1 : 1 ≤ j)
    (hj : j < E.BLK_SZ) :
    (slot_state E a_xr0 a_r0 i j).pos = escapes_before E i j
    ∧ handed (block_loop E a_xr0 a_r0) i j
        = some (if (E.bin_index (i * E.BLK_SZ + j)).val = 255
                then E.AC_exact (escapes_before E i j)
                else E.bin_center (E.bin_index (i * E.BLK_SZ + j)).val) := by
  refine ⟨?_, ?_⟩
  · rw [(slot_state_spec E a_xr0 a_r0 i j hj1).1, exact_before_direct E hq]
  · rw [handed_block_loop E a_xr0 a_r0 i j hi hj]
    have h0 : j ≠ 0 := by omega
    simp [freq_value, h0, ac_value, hq, exact_before_direct E hq]

/-- Witness of C1 on `sample_env false`, at block 1, position 2 (an escape preceded by
two escapes): the value handed over is `AC_exact[2] = 52`. -/
theorem C1_direct_mode_values_witness :
    ((slot_state (sample_env false) zeros zeros 1 2).pos
        = escapes_before (sample_env false) 1 2
      ∧ handed (block_loop (sample_env false) zeros zeros) 1 2
        = some (if ((sample_env false).bin_index (1 * (sample_env false).BLK_SZ + 2)).val = 255
                then (sample_env false).AC_exact (escapes_before (sample_env false) 1 2)
                else (sample_env false).bin_center
                  ((sample_env false).bin_index (1 * (sample_env false).BLK_SZ + 2)).val))
    ∧ escapes_before (sample_env false) 1 2 = 2
    ∧ handed (block_loop (sample_env false) zeros zeros) 1 2 = some 52 :=
  ⟨C1_direct_mode_values (sample_env false) zeros zeros 1 2 rfl (by decide) (by decide)
    (by decide), by decide, by decide⟩

/-- C2. Quantizer-table mode (`USE_QTABLE` on), bin-table hits: for every AC slot
(`i < nblk`, `1 ≤ j < BLK_SZ`) with primary index `b = bin_index[i*BLK_SZ+j]`, if
`b ≠ 255` the value handed to the inverse transform is `bin_center[b]`, without any
quantizer factor; if `b = 255` and the secondary index `s = bin_index[c]` read for this
slot (at the cursor `c` the slot is reached with) is not 255, the value is
`bin_center[s] * qtable[j]`. -/
theorem C2_qtable_bin_hits {α : Type} (E : Env α) (a_xr0 a_r0 : Nat → α) (i j : Nat)
    (hq : E.USE_QTABLE = true) (hi : i < nblk E.N E.BLK_SZ) (hj1 : 1 ≤ j)
    (hj : j < E.BLK_SZ) :
    ((E.bin_index (i * E.BLK_SZ + j)).val ≠ 255 →
      handed (block_loop E a_xr0 a_r0) i j
        = some (E.bin_center (E.bin_index (i * E.BLK_SZ + j)).val))
    ∧ ((E.bin_index (i * E.BLK_SZ + j)).val = 255 →
        (E.bin_index (slot_state E a_xr0 a_r0 i j).c).val ≠ 255 →
        handed (block_loop E a_xr0 a_r0) i j
          = some (E.mul (E.bin_center (E.bin_index (slot_state E a_xr0 a_r0 i j).c).val)
              (E.qtable j))) := by
  have h0 : j ≠ 0 := by omega
  have hc := (slot_state_spec E a_xr0 a_r0 i j hj1).2
  simp only [secondary_reads_before, hq, if_true] at hc
  rw [handed_block_loop E a_xr0 a_r0 i j hi hj, hc]
  refine ⟨?_, ?_⟩
  · intro hb
    simp [freq_value, h0, ac_value, hb]
  · intro hb hs
    have hs2 : (secondary_index E i j).val ≠ 255 := hs
    simp [freq_value, h0, ac_value, hb, hq, hs2]
    rfl

/-- Witness of C2 on `sample_env true`, at block 0, position 2: the primary index is
255, the secondary index read is `bin_index[10] = 7`, and the value handed over is
`bin_center[7] * qtable[2] = 70 * 4`. -/
theorem C2_qtable_bin_hits_witness :
    ((((sample_env true).bin_index (0 * (sample_env true).BLK_SZ + 2)).val ≠ 255 →
      handed (block_loop (sample_env true) zeros zeros) 0 2
        = some ((sample_env true).bin_center
            ((sample_env true).bin_index (0 * (sample_env true).BLK_SZ + 2)).val))
    ∧ (((sample_env true).bin_index (0 * (sample_env true).BLK_SZ + 2)).val = 255 →
        ((sample_env true).bin_index (slot_state (sample_env true) zeros zeros 0 2).c).val
          ≠ 255 →
        handed (block_loop (sample_env true) zeros zeros) 0 2
          = some ((sample_env true).mul
              ((sample_env true).bin_center
                ((sample_env true).bin_index
                  (slot_state (sample_env true) zeros zeros 0 2).c).val)
              ((sample_env true).qtable 2))))
    ∧ (slot_state (sample_env true) zeros zeros 0 2).c = 10
    ∧ handed (block_loop (sample_env true) zeros zeros) 0 2 = some 280 :=
  ⟨C2_qtable_bin_hits (sample_env true) zeros zeros 0 2 rfl (by decide) (by decide)
    (by decide), by decide, by decide⟩

/-- Counterexample to C3 as stated, on `sample_env true` at block 1, position 2: both the
primary index and the secondary index read for the slot are 255, the cursor `pos` is 1 and
`AC_exact[1] = 51`, yet the value handed to the inverse transform is `51 * qtable[2] = 204`,
not the stored exact value. -/
theorem C3_double_escape_counterexample :
    ((sample_env true).bin_index (1 * (sample_env true).BLK_SZ + 2)).val = 255
    ∧ ((sample_env true).bin_index (slot_state (sample_env true) zeros zeros 1 2).c).val = 255
    ∧ (sample_env true).AC_exact (slot_state (sample_env true) zeros zeros 1 2).pos = 51
    ∧ handed (block_loop (sample_env true) zeros zeros) 1 2 = some 204
    ∧ handed (block_loop (sample_env true) zeros zeros) 1 2
        ≠ some ((sample_env true).AC_exact (slot_state (sample_env true) zeros zeros 1 2).pos) := by
  decide

/-- C3, amended. Quantizer-table mode, double escape: for every AC slot (`i < nblk`,
`1 ≤ j < BLK_SZ`) whose primary index is 255 and whose secondary index `bin_index[c]` is
also 255, the value handed to the inverse transform is the next entry of the AC-exact
stream, `AC_exact[pos]`, multiplied by `qtable[j]`, and the cursor `pos` advances by one. -/
theorem C3_double_escape_scaled {α : Type} (E : Env α) (a_xr0 a_r0 : Nat → α) (i j : Nat)
    (hq : E.USE_QTABLE = true) (hi : i < nblk E.N E.BLK_SZ) (hj1 : 1 ≤ j)
    (hj : j < E.BLK_SZ) (hb : (E.bin_index (i * E.BLK_SZ + j)).val = 255)
    (hs : (E.bin_index (slot_state E a_xr0 a_r0 i j).c).val = 255) :
    handed (block_loop E a_xr0 a_r0) i j
        = some (E.mul (E.AC_exact (slot_state E a_xr0 a_r0 i j).pos) (E.qtable j))
    ∧ (ac_slot E i j (slot_state E a_xr0 a_r0 i j)).pos
        = (slot_state E a_xr0 a_r0 i j).pos + 1 := by
  have h0 : j ≠ 0 := by omega
  obtain ⟨hp, hc⟩ := slot_state_spec E a_xr0 a_r0 i j hj1
  have hstep := (ac_slot_spec E i j (slot_state E a_xr0 a_r0 i j) hp hc).1
  simp only [secondary_reads_before, hq, if_true] at hc
  rw [hc] at hs
  have hs2 : (secondary_index E i j).val = 255 := hs
  refine ⟨?_, ?_⟩
  · rw [handed_block_loop E a_xr0 a_r0 i j hi hj, hp]
    simp [freq_value, h0, ac_value, hb, hq, hs2]
  · rw [hstep]
    simp [exact_slot, primary_escape, hb, hq, hs2]

/-- Witness of the amended C3 on `sample_env true`, at block 1, position 2. -/
theorem C3_double_escape_scaled_witness :
    (handed (block_loop (sample_env true) zeros zeros) 1 2
        = some ((sample_env true).mul
            ((sample_env true).AC_exact (slot_state (sample_env true) zeros zeros 1 2).pos)
            ((sample_env true).qtable 2))
      ∧ (ac_slot (sample_env true) 1 2 (slot_state (sample_env true) zeros zeros 1 2)).pos
        = (slot_state (sample_env true) zeros zeros 1 2).pos + 1)
    ∧ (slot_state (sample_env true) zeros zeros 1 2).pos = 1 :=
  ⟨C3_double_escape_scaled (sample_env true) zeros zeros 1 2 rfl (by decide) (by decide)
    (by decide) (by decide) (by decide), by decide⟩

/-- C4. In both modes, for every block `i < nblk`, position 0 of the block handed to the
inverse transform is `DC[i]`; it is the same for any other decode that agrees on
`BLK_SZ`, `N` and `DC[i]`, whatever its mode, bin-index stream, bin table, AC-exact stream
and quantizer table. -/
theorem C4_dc_verbatim {α : Type} (E : Env α) (a_xr0 a_r0 : Nat → α) (i : Nat)
    (hi : i < nblk E.N E.BLK_SZ) :
    handed (block_loop E a_xr0 a_r0) i 0 = some (E.DC i)
    ∧ ∀ (E2 : Env α) (b_xr0 b_r0 : Nat → α), E2.BLK_SZ = E.BLK_SZ → E2.N = E.N →
        E2.DC i = E.DC i →
        handed (block_loop E2 b_xr0 b_r0) i 0 = handed (block_loop E a_xr0 a_r0) i 0 := by
  have hB := blk_pos_of_lt_nblk hi
  have h1 : handed (block_loop E a_xr0 a_r0) i 0 = some (E.DC i) := by
    rw [handed_block_loop E a_xr0 a_r0 i 0 hi hB]
    simp [freq_value]
  refine ⟨h1, ?_⟩
  intro E2 b_xr0 b_r0 hBeq hN hDC
  have hi2 : i < nblk E2.N E2.BLK_SZ := by rw [hBeq, hN]; exact hi
  rw [h1, handed_block_loop E2 b_xr0 b_r0 i 0 hi2 (by rw [hBeq]; exact hB)]
  simp [freq_value, hDC]

/-- Witness of C4 on `sample_env true`, block 1: position 0 holds `DC[1] = 101`. -/
theorem C4_dc_verbatim_witness :
    (handed (block_loop (sample_env true) zeros zeros) 1 0 = some ((sample_env true).DC 1)
      ∧ ∀ (E2 : Env Int) (b_xr0 b_r0 : Nat → Int), E2.BLK_SZ = (sample_env true).BLK_SZ →
          E2.N = (sample_env true).N → E2.DC 1 = (sample_env true).DC 1 →
          handed (block_loop E2 b_xr0 b_r0) 1 0
            = handed (block_loop (sample_env true) zeros zeros) 1 0)
    ∧ (sample_env true).DC 1 = 101 :=
  ⟨C4_dc_verbatim (sample_env true) zeros zeros 1 (by decide), by decide⟩

/-- C5, evaluated. The block count the code computes is the truncated quotient, not the
ceiling: for `N = 65`, `BLK_SZ = 64` it is 1 and `1 * 64 < 65`, while the smallest `m` with
`m * 64 ≥ 65` is 2; and for every block size `B + 2 ≥ 2` the input `N = B + 3` gets one
block, which does not cover `N`. -/
theorem C5_nblk_truncates :
    (nblk 65 64 = 1 ∧ ¬ (65 ≤ nblk 65 64 * 64) ∧ ∀ m : Nat, 65 ≤ m * 64 → 2 ≤ m)
    ∧ ∀ B : Nat, nblk (B + 3) (B + 2) = 1 ∧ ¬ (B + 3 ≤ nblk (B + 3) (B + 2) * (B + 2)) := by
  have hgen : ∀ B : Nat, nblk (B + 3) (B + 2) = 1 := by
    intro B
    unfold nblk
    apply Nat.div_eq_of_lt_le <;> omega
  refine ⟨⟨by decide, by decide, ?_⟩, ?_⟩
  · intro m hm
    omega
  · intro B
    refine ⟨hgen B, ?_⟩
    rw [hgen B]
    omega

/-- C6, evaluated. On the sample container (`N = 9`, `BLK_SZ = 4`) the block loop runs for
2 blocks; output index 8 is below `N` but lies in the slice of no processed block, no
store to `a_r[8]` occurs, and `a_r[8]` still holds the caller's initial content. -/
theorem C6_tail_sample_unwritten :
    nblk (sample_env false).N (sample_env false).BLK_SZ = 2
    ∧ 8 < (sample_env false).N
    ∧ (∀ i, i < nblk (sample_env false).N (sample_env false).BLK_SZ →
        ¬ (i * (sample_env false).BLK_SZ ≤ 8 ∧ 8 < i * (sample_env false).BLK_SZ
            + (sample_env false).BLK_SZ))
    ∧ Access.a_r_write 8 ∉ (block_loop (sample_env false) zeros zeros).trace
    ∧ (block_loop (sample_env false) zeros zeros).a_r 8 = zeros 8 := by
  decide

/-- C7. For every `N ≥ 0` and `BLK_SZ ≥ 1`, every index `i*BLK_SZ+j` with `i < nblk` and
`j < BLK_SZ` is below `N`, and every position at which the block loop loads a primary bin
index, loads or stores `a_xr`, or lets the inverse transform store into `a_r` is below
`N`. -/
theorem C7_sample_positions_below_N {α : Type} (E : Env α) (a_xr0 a_r0 : Nat → α)
    (hB : 0 < E.BLK_SZ) :
    (∀ i j, i < nblk E.N E.BLK_SZ → j < E.BLK_SZ → i * E.BLK_SZ + j < E.N)
    ∧ ∀ e ∈ (block_loop E a_xr0 a_r0).trace, ∀ k, e.sample_index = some k → k < E.N := by
  refine ⟨?_, ?_⟩
  · intro i j hi hj
    have h1 : (i + 1) * E.BLK_SZ ≤ nblk E.N E.BLK_SZ * E.BLK_SZ :=
      Nat.mul_le_mul_right _ hi
    have h2 := nblk_mul_le E.N E.BLK_SZ
    rw [Nat.succ_mul] at h1
    omega
  · have hinit : trace_below E.N (init_state E a_xr0 a_r0) := by
      intro e he
      simp [init_state] at he
    exact blocks_trace_below E E.N _ hB hinit (nblk E.N E.BLK_SZ) (nblk_mul_le _ _)

/-- Witness of C7 on `sample_env true` (`N = 9`, `BLK_SZ = 4`). -/
theorem C7_sample_positions_below_N_witness :
    0 < (sample_env true).BLK_SZ
    ∧ (∀ i j, i < nblk (sample_env true).N (sample_env true).BLK_SZ →
        j < (sample_env true).BLK_SZ → i * (sample_env true).BLK_SZ + j < (sample_env true).N)
    ∧ ∀ e ∈ (block_loop (sample_env true) zeros zeros).trace, ∀ k,
        e.sample_index = some k → k < (sample_env true).N :=
  ⟨by decide, C7_sample_positions_below_N (sample_env true) zeros zeros (by decide)⟩

/-- C8. Magnitude rescaling: with `r` the output array at the end of the block loop, the
array on return equals `r` when `scaling_factor == 1.0`, and for every `k < N` it holds
`r[k] * pow(10, scaling_factor - 1)` when `scaling_factor != 1.0`: one multiplication per
element, applied to the array left by the whole block loop. -/
theorem C8_rescaling {α : Type} (B : Build α) (h : Header α) (buf : Buffers α)
    (a_xr0 a_r0 : Nat → α) (k : Nat) (hk : k < h.num_elements) :
    (B.ops.ne h.scaling_factor B.ops.one = false →
      (dctz_decompress B h buf a_xr0 a_r0).a_r
        = (dctz_decompress B h buf a_xr0 a_r0).loop_end.a_r)
    ∧ (B.ops.ne h.scaling_factor B.ops.one = true →
      (dctz_decompress B h buf a_xr0 a_r0).a_r k
        = B.ops.mul ((dctz_decompress B h buf a_xr0 a_r0).loop_end.a_r k)
            (B.ops.pow B.ops.ten (B.ops.sub h.scaling_factor B.ops.one))) := by
  refine ⟨?_, ?_⟩
  · intro hne
    simp [dctz_decompress, rescale, hne]
  · intro hne
    simp [dctz_decompress, rescale, hne, rescale_loop_spec, hk]

/-- Witness of C8 on the sample container with scaling factor 3, at output index 5: the
block loop leaves 1030 there and the returned array holds `1030 * 10 ^ 2`. -/
theorem C8_rescaling_witness :
    ((int_ops.ne (sample_header 3 3).scaling_factor int_ops.one = false →
      (dctz_decompress (sample_build false) (sample_header 3 3) sample_buffers zeros zeros).a_r
        = (dctz_decompress (sample_build false) (sample_header 3 3) sample_buffers zeros
            zeros).loop_end.a_r)
    ∧ (int_ops.ne (sample_header 3 3).scaling_factor int_ops.one = true →
      (dctz_decompress (sample_build false) (sample_header 3 3) sample_buffers zeros zeros).a_r 5
        = int_ops.mul
            ((dctz_decompress (sample_build false) (sample_header 3 3) sample_buffers zeros
              zeros).loop_end.a_r 5)
            (int_ops.pow int_ops.ten (int_ops.sub (sample_header 3 3).scaling_factor
              int_ops.one))))
    ∧ (dctz_decompress (sample_build false) (sample_header 3 3) sample_buffers zeros
        zeros).loop_end.a_r 5 = 1030
    ∧ (dctz_decompress (sample_build false) (sample_header 3 3) sample_buffers zeros zeros).a_r 5
        = 103000 :=
  ⟨C8_rescaling (sample_build false) (sample_header 3 3) sample_buffers zeros zeros 5
    (by decide), by decide, by decide⟩

/-- C9. Quantizer-table mode: over the whole block loop the number of secondary-index
loads equals the number of processed AC slots whose primary index is 255, the cursor `c`
ends at `N` plus that number, and in any state the body of the inner loop moves `c` by one
and performs one secondary-index load when the slot's primary index is 255, and leaves `c`
alone and performs none otherwise. -/
theorem C9_secondary_reads {α : Type} (E : Env α) (a_xr0 a_r0 : Nat → α)
    (hq : E.USE_QTABLE = true) :
    (block_loop E a_xr0 a_r0).trace.countP Access.is_secondary
        = (slots_of_blocks E.BLK_SZ (nblk E.N E.BLK_SZ)).countP (primary_escape E)
    ∧ (block_loop E a_xr0 a_r0).c
        = E.N + (slots_of_blocks E.BLK_SZ (nblk E.N E.BLK_SZ)).countP (primary_escape E)
    ∧ ∀ (i j : Nat) (s : State α),
        (ac_slot E i j s).c
          = s.c + (if (E.bin_index (i * E.BLK_SZ + j)).val = 255 then 1 else 0)
        ∧ (ac_slot E i j s).trace.countP Access.is_secondary
          = s.trace.countP Access.is_secondary
            + (if (E.bin_index (i * E.BLK_SZ + j)).val = 255 then 1 else 0) := by
  have hm : cursors_match E (block_loop E a_xr0 a_r0) := by
    unfold block_loop
    apply blocks_cursors_match
    simp [cursors_match, init_state]
  have hc : (block_loop E a_xr0 a_r0).c
      = E.N + (slots_of_blocks E.BLK_SZ (nblk E.N E.BLK_SZ)).countP (primary_escape E) := by
    unfold block_loop
    rw [(blocks_spec E a_xr0 a_r0 (nblk E.N E.BLK_SZ)).2.1]
    simp [secondary_reads_before, hq, escapes_before, slots_before_one]
  refine ⟨?_, hc, ?_⟩
  · have := hm.1
    omega
  · intro i j s
    unfold ac_slot
    by_cases hb : (E.bin_index (i * E.BLK_SZ + j)).val = 255
    · by_cases hs : (E.bin_index s.c).val = 255
      · simp [hb, hq, hs, List.countP_append, List.countP_cons, Access.is_secondary]
      · simp [hb, hq, hs, List.countP_append, List.countP_cons, Access.is_secondary]
    · simp [hb, List.countP_append, List.countP_cons, Access.is_secondary]

/-- Witness of C9 on `sample_env true`: three primary escapes, three secondary loads, and
the cursor ends at `9 + 3`. -/
theorem C9_secondary_reads_witness :
    ((block_loop (sample_env true) zeros zeros).trace.countP Access.is_secondary
        = (slots_of_blocks (sample_env true).BLK_SZ
            (nblk (sample_env true).N (sample_env true).BLK_SZ)).countP
            (primary_escape (sample_env true))
    ∧ (block_loop (sample_env true) zeros zeros).c
        = (sample_env true).N + (slots_of_blocks (sample_env true).BLK_SZ
            (nblk (sample_env true).N (sample_env true).BLK_SZ)).countP
            (primary_escape (sample_env true))
    ∧ ∀ (i j : Nat) (s : State Int),
        (ac_slot (sample_env true) i j s).c
          = s.c + (if ((sample_env true).bin_index (i * (sample_env true).BLK_SZ + j)).val
              = 255 then 1 else 0)
        ∧ (ac_slot (sample_env true) i j s).trace.countP Access.is_secondary
          = s.trace.countP Access.is_secondary
            + (if ((sample_env true).bin_index (i * (sample_env true).BLK_SZ + j)).val
                = 255 then 1 else 0))
    ∧ (block_loop (sample_env true) zeros zeros).trace.countP Access.is_secondary = 3
    ∧ (block_loop (sample_env true) zeros zeros).c = 12 :=
  ⟨C9_secondary_reads (sample_env true) zeros zeros rfl, by decide, by decide⟩

/-- Counterexample to C10 as stated: on the sample container in direct mode with a header
declaring `tot_AC_exact_count = 5`, the decoder returns 1 although the block loop consumed
only 3 AC-exact values; so does the whole call on such a container when every allocation
succeeds. -/
theorem C10_stream_accounting_counterexample :
    (dctz_decompress (sample_build false) (sample_header 1 5) sample_buffers zeros zeros).ret = 1
    ∧ (dctz_decompress (sample_build false) (sample_header 1 5) sample_buffers zeros
        zeros).loop_end.pos = 3
    ∧ (sample_header 1 5).tot_AC_exact_count = 5
    ∧ (dctz_decompress (sample_build false) (sample_header 1 5) sample_buffers zeros
        zeros).loop_end.pos ≠ (sample_header 1 5).tot_AC_exact_count
    ∧ (dctz_decompress_call (fun _ _ => true) (sample_build false)
        (sample_setting true 1 true) (sample_container 5) sample_heap zeros).value = some 1
    ∧ (sample_container 5).h.tot_AC_exact_count = 5
    ∧ ((dctz_decompress_call (fun _ _ => true) (sample_build false)
        (sample_setting true 1 true) (sample_container 5) sample_heap zeros).loop_end.map
          (fun s => s.pos)) = some 3 := by
  decide

/-- C10, amended. Whenever the call returns, it returns 1 and the number of AC-exact values
consumed (the final value of the cursor `pos`) is the number of AC-exact loads performed,
which is the number of processed AC slots resolved from the AC-exact stream (primary
escapes in direct mode, double escapes in quantizer-table mode); the same count holds of
the block loop on any header and buffers, so it is not tied to the header field
`tot_AC_exact_count`. -/
theorem C10_stream_accounting_amended {α : Type} (A : Nat → Nat → Bool) (B : Build α)
    (S : Setting α) (C : Container α) (heap : Heap α) (a_r0 : Nat → α) (r : Result α)
    (hret : dctz_decompress_call A B S C heap a_r0 = Outcome.returned r) :
    r.ret = 1
    ∧ r.loop_end.pos = r.loop_end.trace.countP Access.is_exact
    ∧ r.loop_end.pos
        = (slots_of_blocks B.BLK_SZ (nblk C.h.num_elements B.BLK_SZ)).countP
            (exact_slot (container_env B S C heap))
    ∧ ∀ (h : Header α) (buf : Buffers α) (x a : Nat → α),
        (dctz_decompress B h buf x a).loop_end.pos
          = (dctz_decompress B h buf x a).loop_end.trace.countP Access.is_exact
        ∧ (dctz_decompress B h buf x a).loop_end.pos
          = (slots_of_blocks B.BLK_SZ (nblk h.num_elements B.BLK_SZ)).countP
              (exact_slot (env_of B h buf)) := by
  have hback : ∀ (h : Header α) (buf : Buffers α) (x a : Nat → α),
      (dctz_decompress B h buf x a).loop_end.pos
        = (dctz_decompress B h buf x a).loop_end.trace.countP Access.is_exact
      ∧ (dctz_decompress B h buf x a).loop_end.pos
        = (slots_of_blocks B.BLK_SZ (nblk h.num_elements B.BLK_SZ)).countP
            (exact_slot (env_of B h buf)) := by
    intro h buf x a
    have hm : cursors_match (env_of B h buf) (block_loop (env_of B h buf) x a) := by
      unfold block_loop
      apply blocks_cursors_match
      simp [cursors_match, init_state]
    exact ⟨hm.2, (block_loop_final_cursors (env_of B h buf) x a).1⟩
  rw [call_returned A B S C heap a_r0 r hret]
  exact ⟨rfl, (hback C.h (load_buffers B S C heap) heap.a_xr a_r0).1,
    (hback C.h (load_buffers B S C heap) heap.a_xr a_r0).2, hback⟩

/-- Witness of the amended C10: the call on the sample container in direct mode, with a
header declaring 5 AC-exact values and every allocation succeeding, returns 1 having
consumed 3. -/
theorem C10_stream_accounting_amended_witness :
    dctz_decompress_call (fun _ _ => true) (sample_build false) (sample_setting true 1 true)
        (sample_container 5) sample_heap zeros
      = Outcome.returned (dctz_decompress_container (sample_build false)
          (sample_setting true 1 true) (sample_container 5) sample_heap zeros)
    ∧ ((dctz_decompress_container (sample_build false) (sample_setting true 1 true)
          (sample_container 5) sample_heap zeros).ret = 1
      ∧ (dctz_decompress_container (sample_build false) (sample_setting true 1 true)
          (sample_container 5) sample_heap zeros).loop_end.pos
        = (dctz_decompress_container (sample_build false) (sample_setting true 1 true)
          (sample_container 5) sample_heap zeros).loop_end.trace.countP Access.is_exact
      ∧ (dctz_decompress_container (sample_build false) (sample_setting true 1 true)
          (sample_container 5) sample_heap zeros).loop_end.pos
        = (slots_of_blocks (sample_build false).BLK_SZ
            (nblk (sample_container 5).h.num_elements (sample_build false).BLK_SZ)).countP
            (exact_slot (container_env (sample_build false) (sample_setting true 1 true)
              (sample_container 5) sample_heap))
      ∧ ∀ (h : Header Int) (buf : Buffers Int) (x a : Nat → Int),
          (dctz_decompress (sample_build false) h buf x a).loop_end.pos
            = (dctz_decompress (sample_build false) h buf x a).loop_end.trace.countP
                Access.is_exact
          ∧ (dctz_decompress (sample_build false) h buf x a).loop_end.pos
            = (slots_of_blocks (sample_build false).BLK_SZ
                (nblk h.num_elements (sample_build false).BLK_SZ)).countP
                (exact_slot (env_of (sample_build false) h buf)))
    ∧ (dctz_decompress_container (sample_build false) (sample_setting true 1 true)
        (sample_container 5) sample_heap zeros).loop_end.pos = 3
    ∧ (sample_container 5).h.tot_AC_exact_count = 5 :=
  ⟨rfl, C10_stream_accounting_amended (fun _ _ => true) (sample_build false)
    (sample_setting true 1 true) (sample_container 5) sample_heap zeros _ rfl,
    by decide, by decide⟩

/-- Counterexample to C11 as stated, on `sample_env true` (`N = 9`, `nblk = 2`, so
`N - nblk = 7`): slot `(0, 1)` is the primary escape number 0, and its secondary index is
read at cell 9, not at cell 7; the three secondary loads are at cells 9, 10, 11, no
secondary load ever reads cell 7, and cell 7 is read as a primary index. -/
theorem C11_secondary_segment_counterexample :
    (sample_env true).N - nblk (sample_env true).N (sample_env true).BLK_SZ = 7
    ∧ ((sample_env true).bin_index (0 * (sample_env true).BLK_SZ + 1)).val = 255
    ∧ escapes_before (sample_env true) 0 1 = 0
    ∧ (slot_state (sample_env true) zeros zeros 0 1).c = 9
    ∧ (block_loop (sample_env true) zeros zeros).trace.filterMap Access.secondary_pos
        = [9, 10, 11]
    ∧ Access.secondary_read 7 ∉ (block_loop (sample_env true) zeros zeros).trace
    ∧ Access.primary_read 7 ∈ (block_loop (sample_env true) zeros zeros).trace := by
  decide

/-- C11, amended. Quantizer-table mode stream layout: the primary index of AC slot
`(i, j)` is cell `i*BLK_SZ+j` of the inflated bin-index stream, and every primary cell read
lies among the first `N` cells; the secondary segment starts at cell `N`, so the slot
reached after `t` primary escapes finds the cursor `c` at `N + t` and, if it is itself a
primary escape, reads its secondary index there; over the whole loop the secondary loads
read the cells `N, N+1, ...` in that order, one per primary escape. -/
theorem C11_secondary_segment_at_N {α : Type} (E : Env α) (a_xr0 a_r0 : Nat → α)
    (hq : E.USE_QTABLE = true) (hB : 0 < E.BLK_SZ) :
    (∀ k, Access.primary_read k ∈ (block_loop E a_xr0 a_r0).trace → k < E.N)
    ∧ (∀ (i j : Nat) (s : State α),
        Access.primary_read (i * E.BLK_SZ + j) ∈ (ac_slot E i j s).trace
        ∧ ((E.bin_index (i * E.BLK_SZ + j)).val = 255 →
            Access.secondary_read s.c ∈ (ac_slot E i j s).trace))
    ∧ (∀ i j, i < nblk E.N E.BLK_SZ → 1 ≤ j → j < E.BLK_SZ →
        (slot_state E a_xr0 a_r0 i j).c = E.N + escapes_before E i j)
    ∧ (block_loop E a_xr0 a_r0).trace.filterMap Access.secondary_pos
        = List.range' E.N
            ((slots_of_blocks E.BLK_SZ (nblk E.N E.BLK_SZ)).countP (primary_escape E)) := by
  refine ⟨?_, ?_, ?_, ?_⟩
  · intro k hk
    have hinit : trace_below E.N (init_state E a_xr0 a_r0) := by
      intro e he
      simp [init_state] at he
    exact blocks_trace_below E E.N _ hB hinit (nblk E.N E.BLK_SZ) (nblk_mul_le _ _)
      _ hk k rfl
  · intro i j s
    unfold ac_slot
    by_cases hb : (E.bin_index (i * E.BLK_SZ + j)).val = 255
    · by_cases hs : (E.bin_index s.c).val = 255
      · simp [hb, hq, hs]
      · simp [hb, hq, hs]
    · simp [hb]
  · intro i j _ hj1 _
    have hc := (slot_state_spec E a_xr0 a_r0 i j hj1).2
    simpa [secondary_reads_before, hq] using hc
  · obtain ⟨_, hsec, _⟩ := block_loop_cursors_in_order E a_xr0 a_r0
    rw [hsec, (block_loop_final_cursors E a_xr0 a_r0).2]
    simp [hq]

/-- Witness of the amended C11 on `sample_env true`: the secondary loads are at cells
9, 10, 11. -/
theorem C11_secondary_segment_at_N_witness :
    ((∀ k, Access.primary_read k ∈ (block_loop (sample_env true) zeros zeros).trace →
        k < (sample_env true).N)
    ∧ (∀ (i j : Nat) (s : State Int),
        Access.primary_read (i * (sample_env true).BLK_SZ + j)
          ∈ (ac_slot (sample_env true) i j s).trace
        ∧ (((sample_env true).bin_index (i * (sample_env true).BLK_SZ + j)).val = 255 →
            Access.secondary_read s.c ∈ (ac_slot (sample_env true) i j s).trace))
    ∧ (∀ i j, i < nblk (sample_env true).N (sample_env true).BLK_SZ → 1 ≤ j →
        j < (sample_env true).BLK_SZ →
        (slot_state (sample_env true) zeros zeros i j).c
          = (sample_env true).N + escapes_before (sample_env true) i j)
    ∧ (block_loop (sample_env true) zeros zeros).trace.filterMap Access.secondary_pos
        = List.range' (sample_env true).N
            ((slots_of_blocks (sample_env true).BLK_SZ
              (nblk (sample_env true).N (sample_env true).BLK_SZ)).countP
              (primary_escape (sample_env true))))
    ∧ List.range' (sample_env true).N
        ((slots_of_blocks (sample_env true).BLK_SZ
          (nblk (sample_env true).N (sample_env true).BLK_SZ)).countP
          (primary_escape (sample_env true))) = [9, 10, 11] :=
  ⟨C11_secondary_segment_at_N (sample_env true) zeros zeros rfl (by decide), by decide⟩

/-- Counterexample to C12 as stated, on the sample container.  In direct mode with a
header declaring `tot_AC_exact_count = 1`, the decoder loads `AC_exact[2]`, hands it to the
inverse transform as the coefficient of block 1, position 2, and returns 1.  In
quantizer-table mode with a header declaring `bindex_count = 10`, it loads the secondary
index `bin_index[11]` and returns 1.  The whole call, run on such containers with every
allocation succeeding, does the same: it returns 1 after loading `AC_exact[2]`, a cell the
copy of the 8-byte AC-exact stream never wrote, respectively `bin_index[11]`, a cell beyond
the 10 bytes asked of `inflate`. -/
theorem C12_truncation_counterexample :
    ((sample_header 1 1).tot_AC_exact_count ≤ 2
      ∧ Access.AC_exact_read 2 ∈ (dctz_decompress (sample_build false) (sample_header 1 1)
          sample_buffers zeros zeros).loop_end.trace
      ∧ handed (dctz_decompress (sample_build false) (sample_header 1 1) sample_buffers
          zeros zeros).loop_end 1 2 = some (sample_buffers.AC_exact 2)
      ∧ (dctz_decompress (sample_build false) (sample_header 1 1) sample_buffers zeros
          zeros).ret = 1)
    ∧ (({ sample_header 1 3 with bindex_count := 10 } : Header Int).bindex_count ≤ 11
      ∧ Access.secondary_read 11 ∈ (dctz_decompress (sample_build true)
          { sample_header 1 3 with bindex_count := 10 } sample_buffers zeros
          zeros).loop_end.trace
      ∧ (dctz_decompress (sample_build true) { sample_header 1 3 with bindex_count := 10 }
          sample_buffers zeros zeros).ret = 1)
    ∧ ((sample_container 1).h.tot_AC_exact_count ≤ 2
      ∧ (dctz_decompress_call (fun _ _ => true) (sample_build false)
          (sample_setting true 1 true) (sample_container 1) sample_heap zeros).value = some 1
      ∧ Access.AC_exact_read 2 ∈ (dctz_decompress_container (sample_build false)
          (sample_setting true 1 true) (sample_container 1) sample_heap zeros).loop_end.trace
      ∧ handed (dctz_decompress_container (sample_build false) (sample_setting true 1 true)
          (sample_container 1) sample_heap zeros).loop_end 1 2
          = some (sample_heap.AC_exact 2))
    ∧ (short_container.h.bindex_count ≤ 11
      ∧ (dctz_decompress_call (fun _ _ => true) (sample_build true)
          (sample_setting true 1 true) short_container sample_heap zeros).value = some 1
      ∧ Access.secondary_read 11 ∈ (dctz_decompress_container (sample_build true)
          (sample_setting true 1 true) short_container sample_heap zeros).loop_end.trace) := by
  decide

/-- C12, amended. Truncation is not detected: whenever the call returns, it returns 1;
the AC-exact loads have read the cells `0, 1, ...`, one per slot resolved from the AC-exact
stream, and the secondary-index loads the cells `N, N+1, ...`, one per primary escape, so
a cell at or beyond `tot_AC_exact_count`, or at or beyond `bindex_count`, is loaded like any
other once the cursor reaches it; and at every processed slot with primary index 255 the
entry found at the cursor is the coefficient handed to the inverse transform (after the
quantizer factor in quantizer-table mode). -/
theorem C12_no_truncation_check {α : Type} (A : Nat → Nat → Bool) (B : Build α)
    (S : Setting α) (C : Container α) (heap : Heap α) (a_r0 : Nat → α) (r : Result α)
    (hret : dctz_decompress_call A B S C heap a_r0 = Outcome.returned r) :
    r.ret = 1
    ∧ r.loop_end.trace.filterMap Access.exact_pos
        = List.range' 0
            ((slots_of_blocks B.BLK_SZ (nblk C.h.num_elements B.BLK_SZ)).countP
              (exact_slot (container_env B S C heap)))
    ∧ r.loop_end.trace.filterMap Access.secondary_pos
        = List.range' C.h.num_elements
            (if B.USE_QTABLE = true then
              (slots_of_blocks B.BLK_SZ (nblk C.h.num_elements B.BLK_SZ)).countP
                (primary_escape (container_env B S C heap))
            else 0)
    ∧ (∀ k, C.h.tot_AC_exact_count ≤ k → k < r.loop_end.pos →
        Access.AC_exact_read k ∈ r.loop_end.trace)
    ∧ (∀ k, C.h.bindex_count ≤ k → C.h.num_elements ≤ k → k < r.loop_end.c →
        Access.secondary_read k ∈ r.loop_end.trace)
    ∧ ∀ i j, i < nblk C.h.num_elements B.BLK_SZ → 1 ≤ j → j < B.BLK_SZ →
        ((container_env B S C heap).bin_index (i * B.BLK_SZ + j)).val = 255 →
        handed r.loop_end i j
          = some (if B.USE_QTABLE = true then
              B.ops.mul
                (if ((container_env B S C heap).bin_index
                      (slot_state (container_env B S C heap) heap.a_xr a_r0 i j).c).val
                    = 255 then
                  (container_env B S C heap).AC_exact
                    (slot_state (container_env B S C heap) heap.a_xr a_r0 i j).pos
                else
                  (container_env B S C heap).bin_center
                    ((container_env B S C heap).bin_index
                      (slot_state (container_env B S C heap) heap.a_xr a_r0 i j).c).val)
                ((container_env B S C heap).qtable j)
            else
              (container_env B S C heap).AC_exact
                (slot_state (container_env B S C heap) heap.a_xr a_r0 i j).pos) := by
  rw [call_returned A B S C heap a_r0 r hret]
  have hloop : (dctz_decompress_container B S C heap a_r0).loop_end
      = block_loop (container_env B S C heap) heap.a_xr a_r0 := rfl
  obtain ⟨_, hsec, hex⟩ := block_loop_cursors_in_order (container_env B S C heap) heap.a_xr a_r0
  obtain ⟨hpos, hc⟩ := block_loop_final_cursors (container_env B S C heap) heap.a_xr a_r0
  rw [hloop]
  refine ⟨rfl, ?_, ?_, ?_, ?_, ?_⟩
  · rw [hex, hpos]
    rfl
  · rw [hsec, hc, Nat.add_sub_cancel_left]
    rfl
  · intro k _ hk
    exact exact_loads_present (container_env B S C heap) heap.a_xr a_r0 k hk
  · intro k _ hN hk
    exact secondary_loads_present (container_env B S C heap) heap.a_xr a_r0 k hN hk
  · intro i j hi hj1 hj hb
    exact handed_escape (container_env B S C heap) heap.a_xr a_r0 i j hi hj1 hj hb

/-- Witness of the amended C12: the call on the sample container in direct mode, with a
header declaring one AC-exact value (8 bytes of AC-exact stream, two `float` cells), returns;
the third escape loads `AC_exact[2]`, a cell the copy never wrote, and its content is the
coefficient of block 1, position 2. -/
theorem C12_no_truncation_check_witness :
    dctz_decompress_call (fun _ _ => true) (sample_build false) (sample_setting true 1 true)
        (sample_container 1) sample_heap zeros
      = Outcome.returned (dctz_decompress_container (sample_build false) (sample_setting true 1 true)
        (sample_container 1) sample_heap zeros)
    ∧ ((dctz_decompress_container (sample_build false) (sample_setting true 1 true)
        (sample_container 1) sample_heap zeros).ret = 1
      ∧ (dctz_decompress_container (sample_build false) (sample_setting true 1 true)
        (sample_container 1) sample_heap zeros).loop_end.trace.filterMap Access.exact_pos
        = List.range' 0
            ((slots_of_blocks (sample_build false).BLK_SZ
              (nblk (sample_container 1).h.num_elements (sample_build false).BLK_SZ)).countP
              (exact_slot (container_env (sample_build false) (sample_setting true 1 true) (sample_container 1)
        sample_heap)))
      ∧ (dctz_decompress_container (sample_build false) (sample_setting true 1 true)
        (sample_container 1) sample_heap zeros).loop_end.trace.filterMap Access.secondary_pos
        = List.range' (sample_container 1).h.num_elements
            (if (sample_build false).USE_QTABLE = true then
              (slots_of_blocks (sample_build false).BLK_SZ
                (nblk (sample_container 1).h.num_elements
                  (sample_build false).BLK_SZ)).countP (primary_escape (container_env (sample_build false) (sample_setting true 1 true) (sample_container 1)
        sample_heap))
            else 0)
      ∧ (∀ k, (sample_container 1).h.tot_AC_exact_count ≤ k → k < (dctz_decompress_container (sample_build false) (sample_setting true 1 true)
        (sample_container 1) sample_heap zeros).loop_end.pos →
          Access.AC_exact_read k ∈ (dctz_decompress_container (sample_build false) (sample_setting true 1 true)
        (sample_container 1) sample_heap zeros).loop_end.trace)
      ∧ (∀ k, (sample_container 1).h.bindex_count ≤ k →
          (sample_container 1).h.num_elements ≤ k → k < (dctz_decompress_container (sample_build false) (sample_setting true 1 true)
        (sample_container 1) sample_heap zeros).loop_end.c →
          Access.secondary_read k ∈ (dctz_decompress_container (sample_build false) (sample_setting true 1 true)
        (sample_container 1) sample_heap zeros).loop_end.trace)
      ∧ ∀ i j, i < nblk (sample_container 1).h.num_elements (sample_build false).BLK_SZ →
          1 ≤ j → j < (sample_build false).BLK_SZ →
          ((container_env (sample_build false) (sample_setting true 1 true) (sample_container 1)
        sample_heap).bin_index (i * (sample_build false).BLK_SZ + j)).val = 255 →
          handed (dctz_decompress_container (sample_build false) (sample_setting true 1 true)
        (sample_container 1) sample_heap zeros).loop_end i j
            = some (if (sample_build false).USE_QTABLE = true then
                (sample_build false).ops.mul
                  (if ((container_env (sample_build false) (sample_setting true 1 true) (sample_container 1)
        sample_heap).bin_index (slot_state (container_env (sample_build false) (sample_setting true 1 true) (sample_container 1)
        sample_heap) sample_heap.a_xr zeros i j).c).val
                      = 255 then
                    (container_env (sample_build false) (sample_setting true 1 true) (sample_container 1)
        sample_heap).AC_exact (slot_state (container_env (sample_build false) (sample_setting true 1 true) (sample_container 1)
        sample_heap) sample_heap.a_xr zeros i j).pos
                  else
                    (container_env (sample_build false) (sample_setting true 1 true) (sample_container 1)
        sample_heap).bin_center
                      ((container_env (sample_build false) (sample_setting true 1 true) (sample_container 1)
        sample_heap).bin_index (slot_state (container_env (sample_build false) (sample_setting true 1 true) (sample_container 1)
        sample_heap) sample_heap.a_xr zeros i j).c).val)
                  ((container_env (sample_build false) (sample_setting true 1 true) (sample_container 1)
        sample_heap).qtable j)
              else (container_env (sample_build false) (sample_setting true 1 true) (sample_container 1)
        sample_heap).AC_exact (slot_state (container_env (sample_build false) (sample_setting true 1 true) (sample_container 1)
        sample_heap) sample_heap.a_xr zeros i j).pos))
    ∧ (sample_container 1).h.tot_AC_exact_count = 1
    ∧ (dctz_decompress_container (sample_build false) (sample_setting true 1 true)
        (sample_container 1) sample_heap zeros).loop_end.trace.filterMap Access.exact_pos = [0, 1, 2]
    ∧ (slot_state (container_env (sample_build false) (sample_setting true 1 true) (sample_container 1)
        sample_heap) sample_heap.a_xr zeros 1 2).pos = 2
    ∧ (container_env (sample_build false) (sample_setting true 1 true) (sample_container 1)
        sample_heap).AC_exact 2 = sample_heap.AC_exact 2
    ∧ handed (dctz_decompress_container (sample_build false) (sample_setting true 1 true)
        (sample_container 1) sample_heap zeros).loop_end 1 2 = some (sample_heap.AC_exact 2) :=
  ⟨rfl, C12_no_truncation_check (fun _ _ => true) (sample_build false)
    (sample_setting true 1 true) (sample_container 1) sample_heap zeros _ rfl,
    by decide, by decide, by decide, by decide, by decide⟩

/-- C14. Escape-path equivalence: when every primary entry `bin_index[i*BLK_SZ+j]`
(`i < nblk`, `1 ≤ j < BLK_SZ`) differs from 255, the quantizer-table-mode decoder and the
direct-mode decoder of the same build, run on the same header, DC array and primary
entries, hand the same blocks to the inverse transform and return the same output array,
whatever the two quantizer tables, secondary segments, AC-exact streams and initial work
buffers contain. -/
theorem C14_escape_path_equivalence {α : Type} (B : Build α) (h : Header α)
    (buf1 buf2 : Buffers α) (x1 x2 a_r0 : Nat → α)
    (hDC : ∀ i, i < nblk h.num_elements B.BLK_SZ → buf1.DC i = buf2.DC i)
    (hbin : ∀ i j, i < nblk h.num_elements B.BLK_SZ → 1 ≤ j → j < B.BLK_SZ →
      buf1.bin_index (i * B.BLK_SZ + j) = buf2.bin_index (i * B.BLK_SZ + j))
    (hne : ∀ i j, i < nblk h.num_elements B.BLK_SZ → 1 ≤ j → j < B.BLK_SZ →
      (buf1.bin_index (i * B.BLK_SZ + j)).val ≠ 255) :
    (dctz_decompress { B with USE_QTABLE := true } h buf1 x1 a_r0).loop_end.calls
        = (dctz_decompress { B with USE_QTABLE := false } h buf2 x2 a_r0).loop_end.calls
    ∧ (dctz_decompress { B with USE_QTABLE := true } h buf1 x1 a_r0).loop_end.a_r
        = (dctz_decompress { B with USE_QTABLE := false } h buf2 x2 a_r0).loop_end.a_r
    ∧ (dctz_decompress { B with USE_QTABLE := true } h buf1 x1 a_r0).a_r
        = (dctz_decompress { B with USE_QTABLE := false } h buf2 x2 a_r0).a_r := by
  have hcong := block_loop_congr
    (env_of { B with USE_QTABLE := true } h buf1) (env_of { B with USE_QTABLE := false } h buf2)
    x1 x2 a_r0 rfl rfl rfl
    (fun i hi => freq_block_eq_of_hits _ _ i rfl (hDC i hi) rfl
      (fun j h1 hj => hbin i j hi h1 hj) (fun j h1 hj => hne i j hi h1 hj))
  refine ⟨hcong.1, hcong.2, ?_⟩
  show rescale _ _ _ (block_loop _ x1 a_r0).a_r = rescale _ _ _ (block_loop _ x2 a_r0).a_r
  rw [hcong.2]

/-- Witness of C14 on the sample build with scaling factor 3: the two decodes differ in
their secondary segment, AC-exact stream and quantizer table, and agree on their output. -/
theorem C14_escape_path_equivalence_witness :
    (dctz_decompress { sample_build false with USE_QTABLE := true } (sample_header 3 0)
        (hits_buffers 255 0) zeros zeros).loop_end.calls
      = (dctz_decompress { sample_build false with USE_QTABLE := false } (sample_header 3 0)
        (hits_buffers 7 5) zeros zeros).loop_end.calls
    ∧ (dctz_decompress { sample_build false with USE_QTABLE := true } (sample_header 3 0)
        (hits_buffers 255 0) zeros zeros).loop_end.a_r
      = (dctz_decompress { sample_build false with USE_QTABLE := false } (sample_header 3 0)
        (hits_buffers 7 5) zeros zeros).loop_end.a_r
    ∧ (dctz_decompress { sample_build false with USE_QTABLE := true } (sample_header 3 0)
        (hits_buffers 255 0) zeros zeros).a_r
      = (dctz_decompress { sample_build false with USE_QTABLE := false } (sample_header 3 0)
        (hits_buffers 7 5) zeros zeros).a_r :=
  C14_escape_path_equivalence (sample_build false) (sample_header 3 0) (hits_buffers 255 0)
    (hits_buffers 7 5) zeros zeros zeros (fun _ _ => rfl)
    (by
      intro i j hi _ hj
      have hi2 : i < 2 := hi
      have hj2 : j < 4 := hj
      have hk : i * 4 + j < 9 := by omega
      simp [hits_buffers, sample_build, hk])
    (by
      intro i j hi _ hj
      have hi2 : i < 2 := hi
      have hj2 : j < 4 := hj
      have hk : i * 4 + j < 9 := by omega
      simp [hits_buffers, sample_build, hk]
      decide)

/-- C15, evaluated. End-to-end example (`BLK_SZ = 8`, `N = 16`, scaling factor `1.0`,
direct mode, `DC = [1.5, -2.25]`, every bin index 3, `bin_center[3] = 0.004`, no AC-exact
value).  In the truncated-precision build the call returns, having processed 2 blocks,
handed `[1.5, 0.004 × 7]` and `[-2.25, 0.004 × 7]` to the inverse transform, performed no
AC-exact load, and returned the two results, not rescaled.  In the full-precision build
the DC inflation is asked for `2 * 4` bytes for two 8-byte values, `DC[1]` is not filled,
and block 1 is handed the content the fresh `DC` buffer had in place of `-2.25`. -/
theorem C15_end_to_end_example (idct : Nat → List ℚ → Nat → ℚ) (heap : Heap ℚ)
    (a_r0 : Nat → ℚ) :
    dctz_decompress_call (fun _ _ => true) (example_build idct) (example_setting true)
        example_container heap a_r0 = Outcome.returned (dctz_decompress_container (example_build idct) (example_setting true)
        example_container heap a_r0)
    ∧ nblk example_container.h.num_elements (example_build idct).BLK_SZ = 2
    ∧ (dctz_decompress_container (example_build idct) (example_setting true)
        example_container heap a_r0).loop_end.calls
        = [[1.5, 0.004, 0.004, 0.004, 0.004, 0.004, 0.004, 0.004],
           [-2.25, 0.004, 0.004, 0.004, 0.004, 0.004, 0.004, 0.004]]
    ∧ (dctz_decompress_container (example_build idct) (example_setting true)
        example_container heap a_r0).loop_end.pos = 0
    ∧ (dctz_decompress_container (example_build idct) (example_setting true)
        example_container heap a_r0).loop_end.trace.filterMap Access.exact_pos = []
    ∧ (List.range 8).map (dctz_decompress_container (example_build idct) (example_setting true)
        example_container heap a_r0).a_r
        = (List.range 8).map
            (idct 8 [1.5, 0.004, 0.004, 0.004, 0.004, 0.004, 0.004, 0.004])
    ∧ (List.range 8).map (fun k => (dctz_decompress_container (example_build idct) (example_setting true)
        example_container heap a_r0).a_r (8 + k))
        = (List.range 8).map
            (idct 8 [-2.25, 0.004, 0.004, 0.004, 0.004, 0.004, 0.004, 0.004])
    ∧ (DC_request (example_build idct) (example_setting false) example_container.h).avail_out
        = 8
    ∧ 2 * elem_size (example_setting false) = 16
    ∧ (dctz_decompress_container (example_build idct) (example_setting false)
        example_container heap a_r0).loop_end.calls
        = [[1.5, 0.004, 0.004, 0.004, 0.004, 0.004, 0.004, 0.004],
           [heap.DC 1, 0.004, 0.004, 0.004, 0.004, 0.004, 0.004, 0.004]]
    ∧ (List.range 8).map (fun k => (dctz_decompress_container (example_build idct) (example_setting false)
        example_container heap a_r0).a_r (8 + k))
        = (List.range 8).map
            (idct 8 [heap.DC 1, 0.004, 0.004, 0.004, 0.004, 0.004, 0.004, 0.004]) := by
  have hn : nblk example_container.h.num_elements (example_build idct).BLK_SZ = 2 := by
    show nblk 16 8 = 2
    decide
  have h3 : ((3 : Fin 256) : ℕ) = 3 := rfl
  have hblocks : ∀ t : Bool,
      freq_block (container_env (example_build idct) (example_setting t) example_container
          heap) 0 = [1.5, 0.004, 0.004, 0.004, 0.004, 0.004, 0.004, 0.004]
      ∧ freq_block (container_env (example_build idct) (example_setting t) example_container
          heap) 1
        = [if t then -2.25 else heap.DC 1, 0.004, 0.004, 0.004, 0.004, 0.004, 0.004,
            0.004] := by
    intro t
    cases t <;>
      simp [freq_block, freq_value, ac_value, container_env, env_of, load_buffers,
        cell_after, written, DC_request, bin_index_request, ucompSize_DC,
        ucompSize_binindex, nblk, elem_size, sizeof_float, sizeof_double, sizeof_uchar,
        example_build, example_setting, example_container, example_header,
        List.range_succ, h3]
  have hrun : ∀ t : Bool,
      (dctz_decompress_container (example_build idct) (example_setting t) example_container
        heap a_r0).loop_end
        = blocks (container_env (example_build idct) (example_setting t) example_container
            heap) 2
            (init_state (container_env (example_build idct) (example_setting t)
              example_container heap) heap.a_xr a_r0) := by
    intro t
    have h0 : (dctz_decompress_container (example_build idct) (example_setting t)
        example_container heap a_r0).loop_end
        = blocks (container_env (example_build idct) (example_setting t) example_container
            heap)
            (nblk (container_env (example_build idct) (example_setting t) example_container
              heap).N (container_env (example_build idct) (example_setting t)
              example_container heap).BLK_SZ)
            (init_state (container_env (example_build idct) (example_setting t)
              example_container heap) heap.a_xr a_r0) := rfl
    have hnb : nblk (container_env (example_build idct) (example_setting t)
        example_container heap).N (container_env (example_build idct) (example_setting t)
        example_container heap).BLK_SZ = 2 := hn
    rw [h0, hnb]
  have hcalls : ∀ t : Bool,
      (dctz_decompress_container (example_build idct) (example_setting t) example_container
        heap a_r0).loop_end.calls
        = [[1.5, 0.004, 0.004, 0.004, 0.004, 0.004, 0.004, 0.004],
           [if t then -2.25 else heap.DC 1, 0.004, 0.004, 0.004, 0.004, 0.004, 0.004,
            0.004]] := by
    intro t
    rw [hrun t, (blocks_spec _ heap.a_xr a_r0 2).2.2.1]
    simp [List.range_succ, (hblocks t).1, (hblocks t).2]
  have hne : ∀ t : Bool, (example_build idct).ops.ne example_container.h.scaling_factor
      (example_build idct).ops.one = false := by
    intro t
    simp [example_build, rat_ops, example_container, example_header]
  have hout : ∀ (t : Bool) (k : Nat), k < 8 →
      (dctz_decompress_container (example_build idct) (example_setting t) example_container
        heap a_r0).a_r (8 + k)
        = idct 8 [if t then -2.25 else heap.DC 1, 0.004, 0.004, 0.004, 0.004, 0.004,
            0.004, 0.004] k := by
    intro t k hk
    have h1 : (dctz_decompress_container (example_build idct) (example_setting t)
        example_container heap a_r0).a_r
        = (dctz_decompress_container (example_build idct) (example_setting t)
            example_container heap a_r0).loop_end.a_r := by
      simp only [dctz_decompress_container, dctz_decompress, rescale, hne t,
        Bool.false_eq_true, if_false]
    rw [h1, hrun t, (blocks_spec _ heap.a_xr a_r0 2).2.2.2 (8 + k)]
    have hlt : 8 + k < 2 * (container_env (example_build idct) (example_setting t)
        example_container heap).BLK_SZ := by
      show 8 + k < 2 * 8
      omega
    have hd : (8 + k) / (container_env (example_build idct) (example_setting t)
        example_container heap).BLK_SZ = 1 := by
      show (8 + k) / 8 = 1
      omega
    have hm : (8 + k) % (container_env (example_build idct) (example_setting t)
        example_container heap).BLK_SZ = k := by
      show (8 + k) % 8 = k
      omega
    rw [if_pos hlt, hd, hm, (hblocks t).2]
    rfl
  have hout0 : ∀ (k : Nat), k < 8 →
      (dctz_decompress_container (example_build idct) (example_setting true)
        example_container heap a_r0).a_r k
        = idct 8 [1.5, 0.004, 0.004, 0.004, 0.004, 0.004, 0.004, 0.004] k := by
    intro k hk
    have h1 : (dctz_decompress_container (example_build idct) (example_setting true)
        example_container heap a_r0).a_r
        = (dctz_decompress_container (example_build idct) (example_setting true)
            example_container heap a_r0).loop_end.a_r := by
      simp only [dctz_decompress_container, dctz_decompress, rescale, hne true,
        Bool.false_eq_true, if_false]
    rw [h1, hrun true, (blocks_spec _ heap.a_xr a_r0 2).2.2.2 k]
    have hlt : k < 2 * (container_env (example_build idct) (example_setting true)
        example_container heap).BLK_SZ := by
      show k < 2 * 8
      omega
    have hd : k / (container_env (example_build idct) (example_setting true)
        example_container heap).BLK_SZ = 0 := by
      show k / 8 = 0
      omega
    have hm : k % (container_env (example_build idct) (example_setting true)
        example_container heap).BLK_SZ = k := by
      show k % 8 = k
      omega
    rw [if_pos hlt, hd, hm, (hblocks true).1]
    rfl
  have hpos : (dctz_decompress_container (example_build idct) (example_setting true)
      example_container heap a_r0).loop_end.pos = 0 := by
    rw [hrun true, (blocks_spec _ heap.a_xr a_r0 2).1]
    unfold exact_before
    rw [slots_before_one, List.countP_eq_zero]
    intro p hp
    obtain ⟨ha, _, hb⟩ := mem_slots_of_blocks hp
    have hb8 : p.2 < 8 := hb
    have hk : p.1 * 8 + p.2 ≤ 15 := by omega
    simp [exact_slot, primary_escape, container_env, env_of, load_buffers,
      written, bin_index_request, ucompSize_binindex, sizeof_uchar, example_build,
      example_setting, example_container, example_header, h3, hk]
  have hex := (block_loop_cursors_in_order
    (container_env (example_build idct) (example_setting true) example_container heap)
    heap.a_xr a_r0).2.2
  have hreq : (DC_request (example_build idct) (example_setting false)
      example_container.h).avail_out = 8 := by
    show nblk 16 8 * 4 = 8
    decide
  have hex2 : List.filterMap Access.exact_pos
      (dctz_decompress_container (example_build idct) (example_setting true)
        example_container heap a_r0).loop_end.trace
      = List.range' 0 (dctz_decompress_container (example_build idct) (example_setting true)
        example_container heap a_r0).loop_end.pos := hex
  refine ⟨rfl, hn, hcalls true, hpos, ?_, ?_, ?_, hreq, rfl, hcalls false, ?_⟩
  · rw [hex2, hpos]
    rfl
  · apply List.map_congr_left
    intro k hk
    exact hout0 k (List.mem_range.mp hk)
  · apply List.map_congr_left
    intro k hk
    exact hout true k (List.mem_range.mp hk)
  · apply List.map_congr_left
    intro k hk
    exact hout false k (List.mem_range.mp hk)

/-- Counterexample to C13 as stated, on the sample container: `inflate` reports
`Z_DATA_ERROR` (-3) for both streams and produces no byte, yet the decoder returns 1,
having run the inverse transform on two blocks built from the unfilled buffers. -/
theorem C13_inflate_failure_counterexample :
    ((sample_setting true (-3) false).inflate_bin_index
        (bin_index_request (sample_build true) (sample_setting true (-3) false)
          (sample_container 3).h)).ret = -3
    ∧ ((sample_setting true (-3) false).inflate_DC
        (DC_request (sample_build true) (sample_setting true (-3) false)
          (sample_container 3).h)).ret = -3
    ∧ ((sample_setting true (-3) false).inflate_DC
        (DC_request (sample_build true) (sample_setting true (-3) false)
          (sample_container 3).h)).total_out = 0
    ∧ (dctz_decompress_container (sample_build true) (sample_setting true (-3) false)
        (sample_container 3) sample_heap zeros).ret = 1
    ∧ (dctz_decompress_container (sample_build true) (sample_setting true (-3) false)
        (sample_container 3) sample_heap zeros).loop_end.calls
        = [[-1, 0, 0, 0], [-1, 0, 0, 0]]
    ∧ (dctz_decompress_container (sample_build true) (sample_setting true (-3) false)
        (sample_container 3) sample_heap zeros).a_r 0 = 999 := by
  decide

/-- C13, amended. Inflation failure is not detected: whenever the call returns, it returns
1, whatever `inflate` reported for the bin-index stream and for the DC stream, and with any
other two return codes the call ends the same way; it has run the block loop on the
buffers as the inflations left them, handing one block per `i < nblk` to the inverse
transform; a cell of `bin_index` or `DC` that lies wholly beyond the bytes `inflate`
produced has the content it had before, and such a `DC` cell is handed to the inverse
transform as the DC coefficient of its block. -/
theorem C13_inflate_result_ignored {α : Type} (A : Nat → Nat → Bool) (B : Build α)
    (S : Setting α) (C : Container α) (heap : Heap α) (a_r0 : Nat → α) (r : Result α)
    (hret : dctz_decompress_call A B S C heap a_r0 = Outcome.returned r) :
    r.ret = 1
    ∧ (∀ rb rd : Int,
        dctz_decompress_call A B
          { S with
            inflate_bin_index := fun q => { S.inflate_bin_index q with ret := rb }
            inflate_DC := fun q => { S.inflate_DC q with ret := rd } } C heap a_r0
        = dctz_decompress_call A B S C heap a_r0)
    ∧ r.loop_end.calls
        = (List.range (nblk C.h.num_elements B.BLK_SZ)).map
            (freq_block (container_env B S C heap))
    ∧ (∀ k, r.loop_end.a_r k
        = if k < nblk C.h.num_elements B.BLK_SZ * B.BLK_SZ then
            B.ifft_idct B.BLK_SZ (freq_block (container_env B S C heap) (k / B.BLK_SZ))
              (k % B.BLK_SZ)
          else a_r0 k)
    ∧ (∀ k, (S.inflate_bin_index (bin_index_request B S C.h)).total_out ≤ k →
        (container_env B S C heap).bin_index k = heap.bin_index k)
    ∧ (∀ i, (S.inflate_DC (DC_request B S C.h)).total_out ≤ i * elem_size S →
        (container_env B S C heap).DC i = heap.DC i)
    ∧ ∀ i, i < nblk C.h.num_elements B.BLK_SZ →
        (S.inflate_DC (DC_request B S C.h)).total_out ≤ i * elem_size S →
        handed r.loop_end i 0 = some (heap.DC i) := by
  rw [call_returned A B S C heap a_r0 r hret]
  have hloop : (dctz_decompress_container B S C heap a_r0).loop_end
      = blocks (container_env B S C heap) (nblk C.h.num_elements B.BLK_SZ)
          (init_state (container_env B S C heap) heap.a_xr a_r0) := rfl
  obtain ⟨_, _, hcalls, hr⟩ := blocks_spec (container_env B S C heap) heap.a_xr a_r0
    (nblk C.h.num_elements B.BLK_SZ)
  have hDC : ∀ i, (S.inflate_DC (DC_request B S C.h)).total_out ≤ i * elem_size S →
      (container_env B S C heap).DC i = heap.DC i := by
    intro i hi
    apply load_buffers_DC_none
    unfold written
    omega
  refine ⟨rfl, fun _ _ => rfl, ?_, ?_, ?_, hDC, ?_⟩
  · rw [hloop, hcalls]
  · intro k
    rw [hloop, hr]
    rfl
  · intro k hk
    apply load_buffers_bin_index_none
    unfold written
    omega
  · intro i hi htot
    have hB : 0 < (container_env B S C heap).BLK_SZ :=
      blk_pos_of_lt_nblk (N := (container_env B S C heap).N) hi
    have h1 := handed_block_loop (container_env B S C heap) heap.a_xr a_r0 i 0 hi hB
    have h2 : (dctz_decompress_container B S C heap a_r0).loop_end
        = block_loop (container_env B S C heap) heap.a_xr a_r0 := rfl
    rw [h2, h1]
    simp [freq_value, hDC i htot]

/-- Witness of the amended C13: the call on the sample container whose two inflations
report `Z_DATA_ERROR` and produce nothing returns, having handed two blocks built from the
unfilled buffers to the inverse transform. -/
theorem C13_inflate_result_ignored_witness :
    dctz_decompress_call (fun _ _ => true) (sample_build true) (sample_setting true (-3) false)
        (sample_container 3) sample_heap zeros
      = Outcome.returned (dctz_decompress_container (sample_build true) (sample_setting true (-3) false)
        (sample_container 3) sample_heap zeros)
    ∧ ((dctz_decompress_container (sample_build true) (sample_setting true (-3) false)
        (sample_container 3) sample_heap zeros).ret = 1
      ∧ (∀ rb rd : Int,
          dctz_decompress_call (fun _ _ => true) (sample_build true)
            { sample_setting true (-3) false with
              inflate_bin_index := fun q =>
                { (sample_setting true (-3) false).inflate_bin_index q with ret := rb }
              inflate_DC := fun q =>
                { (sample_setting true (-3) false).inflate_DC q with ret := rd } }
            (sample_container 3) sample_heap zeros
          = dctz_decompress_call (fun _ _ => true) (sample_build true)
              (sample_setting true (-3) false) (sample_container 3) sample_heap zeros)
      ∧ (dctz_decompress_container (sample_build true) (sample_setting true (-3) false)
        (sample_container 3) sample_heap zeros).loop_end.calls
          = (List.range (nblk (sample_container 3).h.num_elements
              (sample_build true).BLK_SZ)).map (freq_block (container_env (sample_build true) (sample_setting true (-3) false) (sample_container 3)
        sample_heap))
      ∧ (∀ k, (dctz_decompress_container (sample_build true) (sample_setting true (-3) false)
        (sample_container 3) sample_heap zeros).loop_end.a_r k
          = if k < nblk (sample_container 3).h.num_elements (sample_build true).BLK_SZ
                * (sample_build true).BLK_SZ then
              (sample_build true).ifft_idct (sample_build true).BLK_SZ
                (freq_block (container_env (sample_build true) (sample_setting true (-3) false) (sample_container 3)
        sample_heap) (k / (sample_build true).BLK_SZ))
                (k % (sample_build true).BLK_SZ)
            else zeros k)
      ∧ (∀ k, ((sample_setting true (-3) false).inflate_bin_index
            (bin_index_request (sample_build true) (sample_setting true (-3) false)
              (sample_container 3).h)).total_out ≤ k →
          (container_env (sample_build true) (sample_setting true (-3) false) (sample_container 3)
        sample_heap).bin_index k = sample_heap.bin_index k)
      ∧ (∀ i, ((sample_setting true (-3) false).inflate_DC
            (DC_request (sample_build true) (sample_setting true (-3) false)
              (sample_container 3).h)).total_out
              ≤ i * elem_size (sample_setting true (-3) false) →
          (container_env (sample_build true) (sample_setting true (-3) false) (sample_container 3)
        sample_heap).DC i = sample_heap.DC i)
      ∧ ∀ i, i < nblk (sample_container 3).h.num_elements (sample_build true).BLK_SZ →
          ((sample_setting true (-3) false).inflate_DC
            (DC_request (sample_build true) (sample_setting true (-3) false)
              (sample_container 3).h)).total_out
              ≤ i * elem_size (sample_setting true (-3) false) →
          handed (dctz_decompress_container (sample_build true) (sample_setting true (-3) false)
        (sample_container 3) sample_heap zeros).loop_end i 0 = some (sample_heap.DC i))
    ∧ (dctz_decompress_container (sample_build true) (sample_setting true (-3) false)
        (sample_container 3) sample_heap zeros).loop_end.calls = [[-1, 0, 0, 0], [-1, 0, 0, 0]] :=
  ⟨rfl, C13_inflate_result_ignored (fun _ _ => true) (sample_build true)
    (sample_setting true (-3) false) (sample_container 3) sample_heap zeros _ rfl,
    by decide⟩

/-- C16. Container byte layout: with `H = sizeof(struct header)`, the decoder copies the
compressed bin-index stream from offset `H` with length `bindex_sz_compressed`, the
compressed DC stream from `H + bindex_sz_compressed` with length `DC_sz_compressed`, the
AC-exact stream from `H + bindex_sz_compressed + DC_sz_compressed` with length
`AC_exact_sz_compressed`, and under `USE_QTABLE` the quantizer table from
`H + bindex_sz_compressed + DC_sz_compressed + AC_exact_sz_compressed`.  What the block
loop uses comes from there: the primary index of a slot and the DC coefficient of a block
are what `inflate` produced out of the first and the second of these regions, the
AC-exact cells are the container's own elements of the third region (copied, not
inflated), the one at the cursor `pos` being the coefficient of an escape in direct mode,
and the quantizer factor at position `j` is the container's `double` number `j` of the
fourth. -/
theorem C16_container_layout {α : Type} (B : Build α) (S : Setting α) (C : Container α)
    (heap : Heap α) (a_r0 : Nat → α) :
    (memcpys B S C.h).take 3
        = [{ dst := Dest.bin_indexz, src := S.sizeof_header,
             len := C.h.bindex_sz_compressed },
           { dst := Dest.DCz, src := S.sizeof_header + C.h.bindex_sz_compressed,
             len := C.h.DC_sz_compressed },
           { dst := Dest.AC_exact,
             src := S.sizeof_header + C.h.bindex_sz_compressed + C.h.DC_sz_compressed,
             len := C.h.AC_exact_sz_compressed }]
    ∧ (B.USE_QTABLE = false → (memcpys B S C.h).length = 3)
    ∧ (B.USE_QTABLE = true →
        (memcpys B S C.h).drop 3
          = [{ dst := Dest.qtable,
               src := S.sizeof_header + C.h.bindex_sz_compressed + C.h.DC_sz_compressed
                 + C.h.AC_exact_sz_compressed,
               len := B.BLK_SZ * sizeof_double }])
    ∧ (∀ i j, i < nblk C.h.num_elements B.BLK_SZ → 1 ≤ j → j < B.BLK_SZ →
        i * B.BLK_SZ + j
          < min (S.inflate_bin_index
              { input := { dst := Dest.bin_indexz, src := S.sizeof_header,
                           len := C.h.bindex_sz_compressed }
                avail_in := S.compressBound (ucompSize_binindex B C.h)
                avail_out := ucompSize_binindex B C.h }).total_out
              (ucompSize_binindex B C.h) →
        ((S.inflate_bin_index
              { input := { dst := Dest.bin_indexz, src := S.sizeof_header,
                           len := C.h.bindex_sz_compressed }
                avail_in := S.compressBound (ucompSize_binindex B C.h)
                avail_out := ucompSize_binindex B C.h }).out (i * B.BLK_SZ + j)).val ≠ 255 →
        handed (dctz_decompress_container B S C heap a_r0).loop_end i j
          = some (B.gen_bins B.NBINS C.h.error_bound
              ((S.inflate_bin_index
                { input := { dst := Dest.bin_indexz, src := S.sizeof_header,
                             len := C.h.bindex_sz_compressed }
                  avail_in := S.compressBound (ucompSize_binindex B C.h)
                  avail_out := ucompSize_binindex B C.h }).out (i * B.BLK_SZ + j)).val))
    ∧ (∀ i, i < nblk C.h.num_elements B.BLK_SZ →
        (i + 1) * elem_size S
          ≤ min (S.inflate_DC
              { input := { dst := Dest.DCz,
                           src := S.sizeof_header + C.h.bindex_sz_compressed,
                           len := C.h.DC_sz_compressed }
                avail_in := S.compressBound (ucompSize_DC B C.h)
                avail_out := ucompSize_DC B C.h }).total_out (ucompSize_DC B C.h) →
        handed (dctz_decompress_container B S C heap a_r0).loop_end i 0
          = some ((S.inflate_DC
              { input := { dst := Dest.DCz,
                           src := S.sizeof_header + C.h.bindex_sz_compressed,
                           len := C.h.DC_sz_compressed }
                avail_in := S.compressBound (ucompSize_DC B C.h)
                avail_out := ucompSize_DC B C.h }).out i))
    ∧ (∀ k, (k + 1) * elem_size S ≤ C.h.AC_exact_sz_compressed →
        (container_env B S C heap).AC_exact k
          = elem_at S C (S.sizeof_header + C.h.bindex_sz_compressed + C.h.DC_sz_compressed
              + k * elem_size S))
    ∧ (B.USE_QTABLE = false → ∀ i j, i < nblk C.h.num_elements B.BLK_SZ → 1 ≤ j →
        j < B.BLK_SZ →
        ((container_env B S C heap).bin_index (i * B.BLK_SZ + j)).val = 255 →
        ((slot_state (container_env B S C heap) heap.a_xr a_r0 i j).pos + 1) * elem_size S
          ≤ C.h.AC_exact_sz_compressed →
        handed (dctz_decompress_container B S C heap a_r0).loop_end i j
          = some (elem_at S C
              (S.sizeof_header + C.h.bindex_sz_compressed + C.h.DC_sz_compressed
                + (slot_state (container_env B S C heap) heap.a_xr a_r0 i j).pos
                  * elem_size S)))
    ∧ (B.USE_QTABLE = true → ∀ i j, i < nblk C.h.num_elements B.BLK_SZ → 1 ≤ j →
        j < B.BLK_SZ →
        ((container_env B S C heap).bin_index (i * B.BLK_SZ + j)).val = 255 →
        handed (dctz_decompress_container B S C heap a_r0).loop_end i j
          = some (B.ops.mul
              (if ((container_env B S C heap).bin_index
                    (slot_state (container_env B S C heap) heap.a_xr a_r0 i j).c).val
                  = 255 then
                (container_env B S C heap).AC_exact
                  (slot_state (container_env B S C heap) heap.a_xr a_r0 i j).pos
              else
                (container_env B S C heap).bin_center
                  ((container_env B S C heap).bin_index
                    (slot_state (container_env B S C heap) heap.a_xr a_r0 i j).c).val)
              (C.double_at
                (S.sizeof_header + C.h.bindex_sz_compressed + C.h.DC_sz_compressed
                  + C.h.AC_exact_sz_compressed + j * sizeof_double)))) := by
  have hloop : (dctz_decompress_container B S C heap a_r0).loop_end
      = block_loop (container_env B S C heap) heap.a_xr a_r0 := rfl
  rw [hloop, ← bin_index_request_eq, ← DC_request_eq]
  have hAC : ∀ k, (k + 1) * elem_size S ≤ C.h.AC_exact_sz_compressed →
      (container_env B S C heap).AC_exact k
        = elem_at S C (S.sizeof_header + C.h.bindex_sz_compressed + C.h.DC_sz_compressed
            + k * elem_size S) := by
    intro k hk
    show (load_buffers B S C heap).AC_exact k = _
    rw [load_buffers_AC_exact B S C heap k hk]
    simp [cur_p_AC_exact, cur_p_DC, cur_p_bindex]
  refine ⟨?_, ?_, ?_, ?_, ?_, hAC, ?_, ?_⟩
  · simp [memcpys, cur_p_bindex, cur_p_DC, cur_p_AC_exact]
  · intro hq
    simp [memcpys, hq]
  · intro hq
    simp [memcpys, hq, cur_p_qtable, cur_p_bindex, cur_p_DC, cur_p_AC_exact]
  · intro i j hi hj1 hj hk hb
    have hcell : (container_env B S C heap).bin_index (i * B.BLK_SZ + j)
        = (S.inflate_bin_index (bin_index_request B S C.h)).out (i * B.BLK_SZ + j) := by
      apply load_buffers_bin_index_whole
      unfold written
      rw [show (bin_index_request B S C.h).avail_out = ucompSize_binindex B C.h from rfl]
      exact hk
    have hb2 : ((container_env B S C heap).bin_index
        (i * (container_env B S C heap).BLK_SZ + j)).val ≠ 255 := by
      rw [show (container_env B S C heap).BLK_SZ = B.BLK_SZ from rfl, hcell]
      exact hb
    rw [handed_hit (container_env B S C heap) heap.a_xr a_r0 i j hi hj1 hj hb2,
      show (container_env B S C heap).BLK_SZ = B.BLK_SZ from rfl, hcell]
    rfl
  · intro i hi hk
    have hcell : (container_env B S C heap).DC i
        = (S.inflate_DC (DC_request B S C.h)).out i := by
      apply load_buffers_DC_whole
      unfold written
      rw [show (DC_request B S C.h).avail_out = ucompSize_DC B C.h from rfl]
      exact hk
    rw [handed_DC (container_env B S C heap) heap.a_xr a_r0 i hi, hcell]
  · intro hq i j hi hj1 hj hb hk
    rw [handed_escape_direct (container_env B S C heap) heap.a_xr a_r0 i j hq hi hj1 hj hb,
      hAC _ hk]
  · intro hq i j hi hj1 hj hb
    have hqt : (container_env B S C heap).qtable j
        = C.double_at (S.sizeof_header + C.h.bindex_sz_compressed + C.h.DC_sz_compressed
            + C.h.AC_exact_sz_compressed + j * sizeof_double) := by
      show (load_buffers B S C heap).qtable j = _
      rw [load_buffers_qtable B S C heap hq j hj]
      simp [cur_p_qtable, cur_p_AC_exact, cur_p_DC, cur_p_bindex]
    have hmain := handed_escape_qtable (container_env B S C heap) heap.a_xr a_r0 i j hq hi
      hj1 hj hb
    rw [hqt] at hmain
    exact hmain

/-- C17, evaluated. The uncompressed size requested for the DC stream is `nblk * 4` in
either precision (line 153 multiplies by `sizeof(float)` unconditionally).  In the
full-precision build of the sample container (`nblk = 2`) the request is 8 bytes for a
`DC` buffer of `2 * 8` bytes: an `inflate` that fills all it is asked for fills `DC[0]`
only, and `DC[1]`, which the block loop hands to the inverse transform, keeps the content
the fresh buffer had.  With `USE_TRUNCATE` the same request covers both elements. -/
theorem C17_DC_request_uses_float_width :
    (∀ (B : Build Int) (S : Setting Int) (h : Header Int),
      (DC_request B S h).avail_out = nblk h.num_elements B.BLK_SZ * 4)
    ∧ elem_size (sample_setting false 1 true) = 8
    ∧ nblk (sample_container 3).h.num_elements (sample_build false).BLK_SZ = 2
    ∧ (DC_request (sample_build false) (sample_setting false 1 true)
        (sample_container 3).h).avail_out = 8
    ∧ (load_buffers (sample_build false) (sample_setting false 1 true) (sample_container 3)
        sample_heap).DC 0 = 100
    ∧ (load_buffers (sample_build false) (sample_setting false 1 true) (sample_container 3)
        sample_heap).DC 1 = sample_heap.DC 1
    ∧ handed (dctz_decompress_container (sample_build false) (sample_setting false 1 true)
        (sample_container 3) sample_heap zeros).loop_end 1 0 = some (-1)
    ∧ (load_buffers (sample_build false) (sample_setting true 1 true) (sample_container 3)
        sample_heap).DC 1 = 101 := by
  refine ⟨fun _ _ _ => rfl, ?_⟩
  decide

/-- Counterexample to C18 as stated, on the sample container in quantizer-table mode
(`BLK_SZ = 4`, quantizer section at offset 92, the value stored at an offset being that
offset): the section copied is `4 * 8 = 32` bytes, not `3 * 8`; the factor applied at
position 2 is the value stored at `92 + 2 * 8`, not the one at `92 + 1 * 8`, so the slot
at block 0, position 2 (primary escape, secondary index 7) receives `70 * 108`. -/
theorem C18_qtable_section_counterexample :
    { dst := Dest.qtable, src := 92, len := 32 }
        ∈ memcpys (sample_build true) (sample_setting true 1 true) (sample_container 3).h
    ∧ ((sample_build true).BLK_SZ - 1) * sizeof_double = 24
    ∧ (load_buffers (sample_build true) (sample_setting true 1 true) (sample_container 3)
        sample_heap).qtable 2 = (sample_container 3).double_at (92 + 2 * 8)
    ∧ (load_buffers (sample_build true) (sample_setting true 1 true) (sample_container 3)
        sample_heap).qtable 2 ≠ (sample_container 3).double_at (92 + (2 - 1) * 8)
    ∧ handed (dctz_decompress_container (sample_build true) (sample_setting true 1 true)
        (sample_container 3) sample_heap zeros).loop_end 0 2 = some (70 * 108)
    ∧ handed (dctz_decompress_container (sample_build true) (sample_setting true 1 true)
        (sample_container 3) sample_heap zeros).loop_end 0 2 ≠ some (70 * 100) := by
  decide

/-- C18, amended. Quantizer-table mode: the quantizer-table section the decoder copies
from the container is `BLK_SZ` 8-byte values, and the factor applied on the escape path at
in-block position `j` (`1 ≤ j < BLK_SZ`) is the value number `j` of that section, counted
from 0; the value stored first is copied but never loaded by the block loop. -/
theorem C18_qtable_section_indexed_by_j {α : Type} (B : Build α) (S : Setting α)
    (C : Container α) (heap : Heap α) (a_r0 : Nat → α) (hq : B.USE_QTABLE = true) :
    { dst := Dest.qtable, src := cur_p_qtable S C.h, len := B.BLK_SZ * 8 }
        ∈ memcpys B S C.h
    ∧ (∀ j, j < B.BLK_SZ →
        (load_buffers B S C heap).qtable j = C.double_at (cur_p_qtable S C.h + j * 8))
    ∧ (∀ i j, i < nblk C.h.num_elements B.BLK_SZ → 1 ≤ j → j < B.BLK_SZ →
        ((load_buffers B S C heap).bin_index (i * B.BLK_SZ + j)).val = 255 →
        handed (dctz_decompress_container B S C heap a_r0).loop_end i j
          = some (B.ops.mul
              (if ((load_buffers B S C heap).bin_index
                    (slot_state (env_of B C.h (load_buffers B S C heap)) heap.a_xr a_r0
                      i j).c).val = 255 then
                (load_buffers B S C heap).AC_exact
                  (slot_state (env_of B C.h (load_buffers B S C heap)) heap.a_xr a_r0 i j).pos
              else
                B.gen_bins B.NBINS C.h.error_bound
                  ((load_buffers B S C heap).bin_index
                    (slot_state (env_of B C.h (load_buffers B S C heap)) heap.a_xr a_r0
                      i j).c).val)
              (C.double_at (cur_p_qtable S C.h + j * 8))))
    ∧ Access.qtable_read 0 ∉ (dctz_decompress_container B S C heap a_r0).loop_end.trace := by
  refine ⟨?_, ?_, ?_, ?_⟩
  · simp [memcpys, hq, sizeof_double]
  · intro j hj
    exact load_buffers_qtable B S C heap hq j hj
  · intro i j hi hj1 hj hb
    have hq2 : (env_of B C.h (load_buffers B S C heap)).USE_QTABLE = true := hq
    have hmain := handed_escape_qtable (env_of B C.h (load_buffers B S C heap)) heap.a_xr
      a_r0 i j hq2 hi hj1 hj hb
    have hqt : (env_of B C.h (load_buffers B S C heap)).qtable j
        = C.double_at (cur_p_qtable S C.h + j * 8) :=
      load_buffers_qtable B S C heap hq j hj
    rw [hqt] at hmain
    exact hmain
  · intro hmem
    have := block_loop_qtable_reads_positive (env_of B C.h (load_buffers B S C heap))
      heap.a_xr a_r0 _ hmem 0 rfl
    omega

/-- Witness of the amended C18 on the sample container in quantizer-table mode: the
section copied is 32 bytes at offset 92, and block 0, position 2 receives
`bin_center[7] * 108`, the factor being the value stored at `92 + 2 * 8`. -/
theorem C18_qtable_section_indexed_by_j_witness :
    ({ dst := Dest.qtable, src := cur_p_qtable (sample_setting true 1 true)
          (sample_container 3).h, len := (sample_build true).BLK_SZ * 8 }
        ∈ memcpys (sample_build true) (sample_setting true 1 true) (sample_container 3).h
    ∧ (∀ j, j < (sample_build true).BLK_SZ →
        (load_buffers (sample_build true) (sample_setting true 1 true) (sample_container 3)
          sample_heap).qtable j
          = (sample_container 3).double_at
              (cur_p_qtable (sample_setting true 1 true) (sample_container 3).h + j * 8))
    ∧ (∀ i j, i < nblk (sample_container 3).h.num_elements (sample_build true).BLK_SZ →
        1 ≤ j → j < (sample_build true).BLK_SZ →
        ((load_buffers (sample_build true) (sample_setting true 1 true) (sample_container 3)
          sample_heap).bin_index (i * (sample_build true).BLK_SZ + j)).val = 255 →
        handed (dctz_decompress_container (sample_build true) (sample_setting true 1 true)
            (sample_container 3) sample_heap zeros).loop_end i j
          = some ((sample_build true).ops.mul
              (if ((load_buffers (sample_build true) (sample_setting true 1 true)
                    (sample_container 3) sample_heap).bin_index
                    (slot_state (env_of (sample_build true) (sample_container 3).h
                      (load_buffers (sample_build true) (sample_setting true 1 true)
                        (sample_container 3) sample_heap)) sample_heap.a_xr zeros
                      i j).c).val = 255 then
                (load_buffers (sample_build true) (sample_setting true 1 true)
                  (sample_container 3) sample_heap).AC_exact
                  (slot_state (env_of (sample_build true) (sample_container 3).h
                    (load_buffers (sample_build true) (sample_setting true 1 true)
                      (sample_container 3) sample_heap)) sample_heap.a_xr zeros i j).pos
              else
                (sample_build true).gen_bins (sample_build true).NBINS
                  (sample_container 3).h.error_bound
                  ((load_buffers (sample_build true) (sample_setting true 1 true)
                    (sample_container 3) sample_heap).bin_index
                    (slot_state (env_of (sample_build true) (sample_container 3).h
                      (load_buffers (sample_build true) (sample_setting true 1 true)
                        (sample_container 3) sample_heap)) sample_heap.a_xr zeros
                      i j).c).val)
              ((sample_container 3).double_at
                (cur_p_qtable (sample_setting true 1 true) (sample_container 3).h + j * 8))))
    ∧ Access.qtable_read 0 ∉ (dctz_decompress_container (sample_build true)
        (sample_setting true 1 true) (sample_container 3) sample_heap zeros).loop_end.trace)
    ∧ cur_p_qtable (sample_setting true 1 true) (sample_container 3).h = 92
    ∧ handed (dctz_decompress_container (sample_build true) (sample_setting true 1 true)
        (sample_container 3) sample_heap zeros).loop_end 0 2 = some (70 * 108) :=
  ⟨C18_qtable_section_indexed_by_j (sample_build true) (sample_setting true 1 true)
    (sample_container 3) sample_heap zeros rfl, by decide, by decide⟩

/-- C19, evaluated. On the sample build (`BLK_SZ = 4`) with `N = 9`, whatever the container
holds and whatever `inflate` delivers, output index 8 is not reconstructed: `decoded[8]` is
the content the caller's buffer had before the call.  For an original array with
`original[8]` at distance 100 from that content and error bound 1, the round-trip bound
fails at index 8, for every container an encoder may have produced from it. -/
theorem C19_tail_sample_not_reconstructed (q : Bool) (S : Setting Int) (tot : Nat)
    (float_at double_at : Nat → Int) (heap : Heap Int) (a_r0 : Nat → Int) :
    (sample_header 1 tot).num_elements = 9
    ∧ (dctz_decompress_container (sample_build q) S
        { h := sample_header 1 tot, float_at := float_at, double_at := double_at } heap
        a_r0).a_r 8 = a_r0 8
    ∧ ¬ (|(dctz_decompress_container (sample_build q) S
        { h := sample_header 1 tot, float_at := float_at, double_at := double_at } heap
        a_r0).a_r 8 - (a_r0 8 + 100)| ≤ 1) := by
  have h8 : (dctz_decompress_container (sample_build q) S
      { h := sample_header 1 tot, float_at := float_at, double_at := double_at } heap
      a_r0).a_r 8 = a_r0 8 := by
    unfold dctz_decompress_container
    have hk : nblk (sample_header 1 tot).num_elements (sample_build q).BLK_SZ
        * (sample_build q).BLK_SZ ≤ 8 := by
      show nblk 9 4 * 4 ≤ 8
      decide
    have hne : (sample_build q).ops.ne (sample_header 1 tot).scaling_factor
        (sample_build q).ops.one = false := by
      show ((1 : Int) != 1) = false
      decide
    exact tail_sample_untouched (sample_build q) (sample_header 1 tot) _ heap.a_xr a_r0 8
      hk hne
  refine ⟨rfl, h8, ?_⟩
  rw [h8]
  have : a_r0 8 - (a_r0 8 + 100) = -100 := by ring
  rw [this]
  decide

end DCTZ
